import Mathlib

/-! go-netskope: paginated retrieval and strict decoding

A shallow embedding of `endpoint.go`, `user.go`, `host.go` and `event.go`.

* A JSON document is the tree `JVal` that `encoding/json` hands to the program
  as `interface{}`.  A Go `map[string]interface{}` is the list of its entries
  in the order the `range` statement visits them (an order Go leaves
  unspecified), so a mapping has pairwise distinct keys.
* A `float64` is only ever copied, compared with zero and printed by this
  code; the carrier `Number` is the integers, standing for the `float64`
  values that are whole numbers.
* A Go method with a pointer receiver that returns `error` becomes a function
  from the receiver's state to a `Result`: the state the receiver is left in,
  and whether the call returned `nil`, returned an error, or panicked.
-/

namespace Netskope

/-- The numeric carrier standing for `float64`. -/
abbrev Number := Int

/-- An untyped JSON value as decoded into `interface{}`. -/
inductive JVal where
  | null
  | bool (b : Bool)
  | num (n : Number)
  | str (s : String)
  | arr (xs : List JVal)
  | obj (kvs : List (String × JVal))

/-- How a call on a receiver of type `σ` ends: `ok` is a `nil` error,
`error` a non-nil error with its text, `panic` a run-time panic (a failed
unchecked type assertion).  Each carries the receiver as the call left it. -/
inductive Result (σ : Type) where
  | ok (s : σ)
  | error (s : σ) (msg : String)
  | panic (s : σ)
  deriving DecidableEq, Repr

/-- The receiver as the call left it. -/
def Result.state {σ : Type} : Result σ → σ
  | .ok s => s
  | .error s _ => s
  | .panic s => s

/-- The call returned `nil`. -/
def Result.isOk {σ : Type} : Result σ → Bool
  | .ok _ => true
  | _ => false

/-- The call returned a non-nil error. -/
def Result.isError {σ : Type} : Result σ → Bool
  | .error _ _ => true
  | _ => false

/-- The call did not return: it panicked. -/
def Result.isPanic {σ : Type} : Result σ → Bool
  | .panic _ => true
  | _ => false

/-- The error text of a call that returned an error. -/
def Result.errText {σ : Type} : Result σ → Option String
  | .error _ msg => some msg
  | _ => none

/-- Substring test on error texts: `needle` occurs somewhere in `text`. -/
def Mentions (text needle : String) : Prop :=
  ∃ pre post : String, text = pre ++ needle ++ post

/-- The loop `for k, v := range m { switch k { ... } }` whose body either
falls through to the next entry or leaves the function: `body` is the switch,
run on the entries in the order visited. -/
def rangeLoop {σ : Type} (body : σ → String → JVal → Result σ) : σ → List (String × JVal) → Result σ
  | s, [] => .ok s
  | s, (k, v) :: rest =>
    match body s k v with
    | .ok s' => rangeLoop body s' rest
    | r => r

/-! ## Rendering of `%v` -/

/-- Decimal digits of a natural number, most significant first. -/
def digitsOf (n : Nat) : List Char := (Nat.toDigits 10 n)

/-- Drop the trailing zeros of a digit string. -/
def stripZeros (ds : List Char) : List Char :=
  (ds.reverse.dropWhile (fun c => c == '0')).reverse

/-- The number of binary digits of `n`. -/
def bitLength (n : Nat) : Nat :=
  if n = 0 then 0 else (Nat.toDigits 2 n).length

/-- The integral `float64` nearest to the natural number `n`, ties going to
the even mantissa: `n` itself when it fits the 53-bit mantissa. -/
def toFloat64 (n : Nat) : Nat :=
  let e := bitLength n - 53
  if e = 0 then n
  else
    let q := n / 2 ^ e
    let r := n % 2 ^ e
    let half := 2 ^ (e - 1)
    if half < r ∨ (r = half ∧ q % 2 = 1) then (q + 1) * 2 ^ e else q * 2 ^ e

/-- The decimal integer `c` reads back as the integral `float64` `f`: it lies
no further from `f` than half the way to the neighbouring `float64` on its
side, the halfway point counting when the mantissa of `f` is even. -/
def readsBackAs (f c : Nat) : Bool :=
  let e := bitLength f - 53
  if e = 0 then c == f
  else
    let m := f / 2 ^ e
    let gapUp := 2 ^ e
    let gapDown := if m = 2 ^ 52 then 2 ^ (e - 1) else 2 ^ e
    if f ≤ c then
      if m % 2 = 0 then decide (2 * (c - f) ≤ gapUp) else decide (2 * (c - f) < gapUp)
    else
      if m % 2 = 0 then decide (2 * (f - c) ≤ gapDown) else decide (2 * (f - c) < gapDown)

/-- The decimal with the fewest significant digits that reads back as `f`,
the nearest to `f` among those: multiples of `10 ^ k` are tried from the
coarsest down to `f` itself. -/
def shortestDecimal (f : Nat) : Nat → Nat
  | 0 => f
  | k + 1 =>
    let p := 10 ^ (k + 1)
    let down := f / p * p
    let up := down + p
    if readsBackAs f down && readsBackAs f up then
      if f - down < up - f then down
      else if up - f < f - down then up
      else if (f / p) % 2 = 0 then down else up
    else if readsBackAs f down then down
    else if readsBackAs f up then up
    else shortestDecimal f k

/-- The `%v` rendering of an integral `float64` (`%g` with the shortest
precision): the shortest digits that read back as the value, in plain decimal
below one million, otherwise as `d.ddde+XX`. -/
def fmtNumber (n : Number) : String :=
  let sign := if n < 0 then "-" else ""
  let f := toFloat64 n.natAbs
  let ds := digitsOf (shortestDecimal f ((digitsOf f).length - 1))
  let exp := ds.length - 1
  if exp < 6 then sign ++ String.mk ds
  else
    let sig := stripZeros ds
    let mant := match sig with
      | [] => "0"
      | [d] => String.mk [d]
      | d :: more => String.mk (d :: '.' :: more)
    sign ++ mant ++ "e+" ++ (if exp < 10 then "0" else "") ++ String.mk (digitsOf exp)

/-- Lexicographic order on keys, character by character. -/
def keyLt : List Char → List Char → Bool
  | [], [] => false
  | [], _ :: _ => true
  | _ :: _, [] => false
  | a :: as, b :: bs => if a.toNat < b.toNat then true else if b.toNat < a.toNat then false else keyLt as bs

/-- Insert an entry into a key-sorted list of entries. -/
def insertByKey (p : String × String) : List (String × String) → List (String × String)
  | [] => [p]
  | q :: qs => if keyLt p.1.data q.1.data then p :: q :: qs else q :: insertByKey p qs

/-- Sort entries by key; `fmt` prints maps in key order. -/
def sortByKey (ps : List (String × String)) : List (String × String) :=
  ps.foldr insertByKey []

mutual
/-- The `%v` rendering of a decoded JSON value. -/
def fmtValue : JVal → String
  | .null => "<nil>"
  | .bool b => if b then "true" else "false"
  | .num n => fmtNumber n
  | .str s => s
  | .arr xs => "[" ++ " ".intercalate (fmtValues xs) ++ "]"
  | .obj kvs => "map[" ++ " ".intercalate ((sortByKey (fmtEntries kvs)).map (fun p => p.1 ++ ":" ++ p.2)) ++ "]"
termination_by structural v => v
/-- Renderings of the elements of a slice. -/
def fmtValues : List JVal → List String
  | [] => []
  | x :: xs => fmtValue x :: fmtValues xs
termination_by structural xs => xs
/-- Renderings of the entries of a map. -/
def fmtEntries : List (String × JVal) → List (String × String)
  | [] => []
  | (k, v) :: rest => (k, fmtValue v) :: fmtEntries rest
termination_by structural kvs => kvs
end

/-! ## event.go -/

/-- Event is an event and its attributes. -/
structure Event where
  Actor : String := ""
  Name : String := ""
  NpaStatus : String := ""
  Status : String := ""
  Timestamp : Number := 0
  deriving DecidableEq, Repr

/-- The switch of `Event.load`: one entry of the mapping. -/
def Event.loadEntry (e : Event) (k : String) (v : JVal) : Result Event :=
  if k = "actor" then
    match v with
    | .str s => .ok { e with Actor := s }
    | _ => .panic e
  else if k = "event" then
    match v with
    | .str s => .ok { e with Name := s }
    | _ => .panic e
  else if k = "npa_status" then
    match v with
    | .str s => .ok { e with NpaStatus := s }
    | _ => .panic e
  else if k = "status" then
    match v with
    | .str s => .ok { e with Status := s }
    | _ => .panic e
  else if k = "timestamp" then
    match v with
    | .num n => .ok { e with Timestamp := n }
    | _ => .panic e
  else .error e ("unsupported attribute: " ++ k ++ ", " ++ fmtValue v)

/-- The method `(e *Event) load(m)`.  A nil map has no entries, so the early
return for it is what the loop does on no entries. -/
def Event.load (e : Event) (m : List (String × JVal)) : Result Event :=
  rangeLoop Event.loadEntry e m

/-! ## host.go -/

/-- Host is a host with its attributes. -/
structure Host where
  DeviceMake : String := ""
  DeviceModel : String := ""
  Hostname : String := ""
  ManagementID : String := ""
  OperatingSystemName : String := ""
  OperatingSystemVersion : String := ""
  NsDeviceUID : String := ""
  deriving DecidableEq, Repr

/-- The switch of `Host.load`: one entry of the mapping. -/
def Host.loadEntry (h : Host) (k : String) (v : JVal) : Result Host :=
  if k = "device_make" then
    match v with
    | .str s => .ok { h with DeviceMake := s }
    | _ => .panic h
  else if k = "device_model" then
    match v with
    | .str s => .ok { h with DeviceModel := s }
    | _ => .panic h
  else if k = "hostname" then
    match v with
    | .str s => .ok { h with Hostname := s }
    | _ => .panic h
  else if k = "managementID" then
    match v with
    | .str s => .ok { h with ManagementID := s }
    | _ => .panic h
  else if k = "os" then
    match v with
    | .str s => .ok { h with OperatingSystemName := s }
    | _ => .panic h
  else if k = "os_version" then
    match v with
    | .str s => .ok { h with OperatingSystemVersion := s }
    | _ => .panic h
  else if k = "nsdeviceuid" then
    match v with
    | .str s => .ok { h with NsDeviceUID := s }
    | _ => .panic h
  else .error h ("unsupported attribute: " ++ k ++ ", " ++ fmtValue v)

/-- The method `(h *Host) load(m)`. -/
def Host.load (h : Host) (m : List (String × JVal)) : Result Host :=
  rangeLoop Host.loadEntry h m

/-! ## user.go -/

/-- User is a user with its attributes.  A nil `*Event` is `none`; a nil
slice is the empty list. -/
structure User where
  ID : String := ""
  DeviceClassificationStatus : String := ""
  LastEvent : Option Event := none
  OrganizationUnit : String := ""
  AddedTimestamp : Number := 0
  Groups : List String := []
  Source : String := ""
  Key : String := ""
  Username : String := ""
  deriving DecidableEq, Repr

/-- The loop `for _, g := range v.([]interface{})` of the `user_groups`
case, after the assertion on `v`. -/
def User.appendGroups (u : User) : List JVal → Result User
  | [] => .ok u
  | .str g :: rest => User.appendGroups { u with Groups := u.Groups ++ [g] } rest
  | _ :: _ => .panic u

/-- The switch of `User.load`: one entry of the mapping. -/
def User.loadEntry (u : User) (k : String) (v : JVal) : Result User :=
  if k = "_id" then
    match v with
    | .str s => .ok { u with ID := s }
    | _ => .panic u
  else if k = "device_classification_status" then
    match v with
    | .str s => .ok { u with DeviceClassificationStatus := s }
    | _ => .panic u
  else if k = "last_event" then
    match v with
    | .obj m =>
      match Event.load {} m with
      | .ok e => .ok { u with LastEvent := some e }
      | .error _ err => .error u ("failed to unpack ClientEndpoint, " ++ k ++ " attribute error: " ++ err)
      | .panic _ => .panic u
    | _ => .panic u
  else if k = "organization_unit" then
    match v with
    | .str s => .ok { u with OrganizationUnit := s }
    | _ => .panic u
  else if k = "user_added_time" then
    match v with
    | .num n => .ok { u with AddedTimestamp := n }
    | _ => .panic u
  else if k = "user_groups" then
    match v with
    | .arr gs => User.appendGroups u gs
    | _ => .panic u
  else if k = "user_source" then
    match v with
    | .str s => .ok { u with Source := s }
    | _ => .panic u
  else if k = "userkey" then
    match v with
    | .str s => .ok { u with Key := s }
    | _ => .panic u
  else if k = "username" then
    match v with
    | .str s => .ok { u with Username := s }
    | _ => .panic u
  else .error u ("unsupported attribute: " ++ k ++ ", " ++ fmtValue v)

/-- The method `(u *User) load(m)`. -/
def User.load (u : User) (m : List (String × JVal)) : Result User :=
  rangeLoop User.loadEntry u m

/-! ## endpoint.go: the entity and its decoder -/

/-- ClientEndpoint is a compute endpoint. -/
structure ClientEndpoint where
  ID : String := ""
  DeviceID : String := ""
  InstallTimestamp : Number := 0
  Version : String := ""
  Users : List User := []
  HostInfo : Option Host := none
  LastEvent : Option Event := none
  deriving DecidableEq, Repr

/-- The loop `for _, u := range v.([]interface{})` of the `users` case,
after the assertion on `v`; `k` is the key of the case. -/
def ClientEndpoint.appendUsers (k : String) (c : ClientEndpoint) : List JVal → Result ClientEndpoint
  | [] => .ok c
  | .obj m :: rest =>
    match User.load {} m with
    | .ok usr => ClientEndpoint.appendUsers k { c with Users := c.Users ++ [usr] } rest
    | .error _ err => .error c ("failed to unpack ClientEndpoint, " ++ k ++ " attribute error: " ++ err)
    | .panic _ => .panic c
  | _ :: _ => .panic c

/-- The switch of `ClientEndpoint.UnmarshalJSON`: one entry of `attributes`. -/
def ClientEndpoint.loadEntry (c : ClientEndpoint) (k : String) (v : JVal) : Result ClientEndpoint :=
  if k = "_id" then
    match v with
    | .str s => .ok { c with ID := s }
    | _ => .panic c
  else if k = "device_id" then
    match v with
    | .str s => .ok { c with DeviceID := s }
    | _ => .panic c
  else if k = "client_install_time" then
    match v with
    | .num n => .ok { c with InstallTimestamp := n }
    | _ => .panic c
  else if k = "client_version" then
    match v with
    | .str s => .ok { c with Version := s }
    | _ => .panic c
  else if k = "users" then
    match v with
    | .arr us => ClientEndpoint.appendUsers k c us
    | _ => .panic c
  else if k = "host_info" then
    match v with
    | .obj m =>
      match Host.load {} m with
      | .ok hostInfo => .ok { c with HostInfo := some hostInfo }
      | .error _ err => .error c ("failed to unpack ClientEndpoint, " ++ k ++ " attribute error: " ++ err)
      | .panic _ => .panic c
    | _ => .panic c
  else if k = "last_event" then
    match v with
    | .obj m =>
      match Event.load {} m with
      | .ok lastEvent => .ok { c with LastEvent := some lastEvent }
      | .error _ err => .error c ("failed to unpack ClientEndpoint, " ++ k ++ " attribute error: " ++ err)
      | .panic _ => .panic c
    | _ => .panic c
  else .error c ("failed to unpack ClientEndpoint, unsupported attribute: " ++ k ++ ", " ++ fmtValue v)

/-- The loop of `ClientEndpoint.UnmarshalJSON` over the entries of `attributes`. -/
def ClientEndpoint.load (c : ClientEndpoint) (attrs : List (String × JVal)) : Result ClientEndpoint :=
  rangeLoop ClientEndpoint.loadEntry c attrs

/-- The byte slice handed to `UnmarshalJSON`: its bytes read as text, and the
value `encoding/json` reads from them (`none` when they are not valid JSON). -/
structure Payload where
  text : String
  json : Option JVal

/-- The length `len(b)` in bytes. -/
def Payload.len (b : Payload) : Nat := b.text.utf8ByteSize

/-- The call `json.Unmarshal(b, &m)` for `m` a `map[string]interface{}`:
`none` is a non-nil error (invalid JSON, or a value that is neither an object
nor `null`); JSON `null` leaves `m` nil, a map without entries. -/
def unmarshalMap (b : Payload) : Option (List (String × JVal)) :=
  match b.json with
  | some (.obj kvs) => some kvs
  | some .null => some []
  | _ => none

/-- UnmarshalJSON unpacks byte array into ClientEndpoint. -/
def ClientEndpoint.UnmarshalJSON (c : ClientEndpoint) (b : Payload) : Result ClientEndpoint :=
  if b.len < 10 then .error c ("invalid ClientEndpoint data: " ++ b.text)
  else
    match unmarshalMap b with
    | none => .error c "failed to unpack ClientEndpoint"
    | some m =>
      match m.lookup "attributes" with
      | none => .error c "failed to unpack ClientEndpoint, attributes not found"
      | some (.obj attrs) => ClientEndpoint.load c attrs
      | some _ => .panic c

/-! ## endpoint.go: serialization

`json.Marshal` follows the struct tags: a tagged field is written under its
tag name and, with `omitempty`, left out when empty; an untagged field is
written under its Go name, always.  The string `ToJSONString` returns is
represented by the JSON value it spells. -/

/-- A field tagged `omitempty` holding a string. -/
def omitStr (key s : String) : List (String × JVal) :=
  if s = "" then [] else [(key, .str s)]

/-- A field tagged `omitempty` holding a `float64`. -/
def omitNum (key : String) (n : Number) : List (String × JVal) :=
  if n = 0 then [] else [(key, .num n)]

/-- The object `json.Marshal` writes for an `Event`. -/
def Event.marshal (e : Event) : JVal :=
  .obj (omitStr "actor" e.Actor ++ omitStr "event" e.Name ++ omitStr "npa_status" e.NpaStatus
    ++ omitStr "status" e.Status ++ omitNum "timestamp" e.Timestamp)

/-- The object `json.Marshal` writes for a `Host`. -/
def Host.marshal (h : Host) : JVal :=
  .obj (omitStr "device_make" h.DeviceMake ++ omitStr "device_model" h.DeviceModel
    ++ omitStr "hostname" h.Hostname ++ omitStr "managementID" h.ManagementID
    ++ omitStr "os" h.OperatingSystemName ++ omitStr "os_version" h.OperatingSystemVersion
    ++ omitStr "nsdeviceuid" h.NsDeviceUID)

/-- The members `json.Marshal` writes for a `User`, in field order: the field
`LastEvent` carries no tag, so it is written under the key `LastEvent`, as
`null` when the pointer is nil. -/
def User.marshalFields (u : User) : List (String × JVal) :=
  omitStr "_id" u.ID ++ omitStr "device_classification_status" u.DeviceClassificationStatus
    ++ [("LastEvent", match u.LastEvent with
          | none => JVal.null
          | some e => e.marshal)]
    ++ omitStr "organization_unit" u.OrganizationUnit
    ++ omitNum "user_added_time" u.AddedTimestamp
    ++ (if u.Groups = [] then [] else [("user_groups", .arr (u.Groups.map JVal.str))])
    ++ omitStr "user_source" u.Source ++ omitStr "userkey" u.Key ++ omitStr "username" u.Username

/-- The object `json.Marshal` writes for a `User`. -/
def User.marshal (u : User) : JVal := .obj u.marshalFields

/-- The members `json.Marshal` writes for a `ClientEndpoint`, in field order. -/
def ClientEndpoint.marshalFields (c : ClientEndpoint) : List (String × JVal) :=
  omitStr "_id" c.ID ++ omitStr "device_id" c.DeviceID
    ++ omitNum "client_install_time" c.InstallTimestamp
    ++ omitStr "client_version" c.Version
    ++ (if c.Users = [] then [] else [("users", .arr (c.Users.map User.marshal))])
    ++ (match c.HostInfo with
          | none => []
          | some h => [("host_info", h.marshal)])
    ++ (match c.LastEvent with
          | none => []
          | some e => [("last_event", e.marshal)])

/-- The object `json.Marshal` writes for a `ClientEndpoint`. -/
def ClientEndpoint.marshal (c : ClientEndpoint) : JVal := .obj c.marshalFields

/-- ToJSONString serializes ClientEndpoint to a string.  `json.Marshal` has no
failure on these field types. -/
def ClientEndpoint.ToJSONString (c : ClientEndpoint) : Except String JVal :=
  .ok c.marshal

/-! ## endpoint.go: the paginated retrieval -/

/-- An element of `[]*ClientEndpoint`; `none` is a nil pointer. -/
abbrev EndpointRef := Option ClientEndpoint

/-- ClientEndpointResponse is response from clients API endpoint. -/
structure ClientEndpointResponse where
  Status : String := ""
  Message : String := ""
  ClientEndpoints : List EndpointRef := []
  deriving DecidableEq, Repr

/-- The query parameters of one call. -/
structure Params where
  limit : String
  skip : String
  deriving DecidableEq, Repr

/-- The function `strconv.Itoa`. -/
def Itoa (n : Int) : String := toString n

/-- How `json.Unmarshal(b, &resp)` ends. -/
inductive Unmarshalled where
  | ok (resp : ClientEndpointResponse)
  | error (err : String)
  | panic
  deriving DecidableEq, Repr

/-- The collaborators of the retrieval loop, over response bodies `β`.
`callAPI n method svc params` is the reply to a call made after `n` earlier
calls; `unmarshal` is `json.Unmarshal` into a fresh `ClientEndpointResponse`. -/
structure Transport (β : Type) where
  callAPI : Nat → String → String → Params → Except String β
  unmarshal : β → Unmarshalled

/-- How `GetClientEndpoints` ends: with the two returned values, or in a panic. -/
inductive Outcome where
  | returned (endpoints : List EndpointRef) (err : Option String)
  | panicked
  deriving DecidableEq, Repr

/-- A finished run: the calls made to `callAPI`, oldest first, and the outcome. -/
structure Run where
  calls : List Params
  outcome : Outcome
  deriving DecidableEq, Repr

/-- The `for` loop of `GetClientEndpoints`; `fuel` bounds the number of
iterations, `none` is a loop still running when the fuel is spent. -/
def GetClientEndpoints.loop {β : Type} (c : Transport β) (pageSize : Int) :
    Nat → Int → List EndpointRef → List Params → Option Run
  | 0, _, _, _ => none
  | fuel + 1, offset, endpoints, calls =>
    let params : Params := { limit := Itoa pageSize, skip := Itoa offset }
    match c.callAPI calls.length "GET" "clients" params with
    | .error err => some ⟨calls ++ [params], .returned endpoints (some err)⟩
    | .ok b =>
      match c.unmarshal b with
      | .error err =>
        some ⟨calls ++ [params], .returned endpoints (some ("failed unmarshalling response: " ++ err))⟩
      | .panic => some ⟨calls ++ [params], .panicked⟩
      | .ok resp =>
        let endpoints := endpoints ++ resp.ClientEndpoints
        let offset := offset + resp.ClientEndpoints.length
        if (resp.ClientEndpoints.length : Int) < pageSize then
          some ⟨calls ++ [params], .returned endpoints none⟩
        else GetClientEndpoints.loop c pageSize fuel offset endpoints (calls ++ [params])

/-- A value of the options map. -/
inductive OptValue where
  | int (n : Int)
  | other
  deriving DecidableEq, Repr

/-- GetClientEndpoints returns a list of ClientEndpoint instances. -/
def GetClientEndpoints {β : Type} (c : Transport β) (opts : List (String × OptValue)) (fuel : Nat) :
    Option Run :=
  match opts.lookup "page_size" with
  | none => GetClientEndpoints.loop c 1000 fuel 0 [] []
  | some (.int v) => GetClientEndpoints.loop c v fuel 0 [] []
  | some .other => some ⟨[], .panicked⟩

/-- A transport that serves the given pages in turn, whatever is asked, and
fails once they are used up. -/
def scripted (pages : List (List EndpointRef)) : Transport (List EndpointRef) where
  callAPI := fun n _ _ _ =>
    match pages.get? n with
    | some p => .ok p
    | none => .error "error: status code 500: "
  unmarshal := fun p => .ok { ClientEndpoints := p }

/-! ## Scripts of pages -/

/-- The transport, asked after `n` earlier calls for `pageSize` records from
`offset` on, replies with a body that decodes to the page `p`. -/
def ServesPage {β : Type} (c : Transport β) (pageSize : Int) (n : Nat) (offset : Int)
    (p : List EndpointRef) : Prop :=
  ∃ b resp, c.callAPI n "GET" "clients" ⟨Itoa pageSize, Itoa offset⟩ = .ok b
    ∧ c.unmarshal b = .ok resp ∧ resp.ClientEndpoints = p

/-- The transport serves the pages in turn, each asked for at the offset the
pages before it add up to. -/
def Serves {β : Type} (c : Transport β) (pageSize : Int) :
    Nat → Int → List (List EndpointRef) → Prop
  | _, _, [] => True
  | n, offset, p :: ps =>
    ServesPage c pageSize n offset p ∧ Serves c pageSize (n + 1) (offset + p.length) ps

/-- The number of records in a list of pages. -/
def recordCount (pages : List (List EndpointRef)) : Nat :=
  (pages.map List.length).sum

/-- The requests that ask for the pages in turn, starting at `offset`. -/
def requests (pageSize : Int) : Int → List (List EndpointRef) → List Params
  | _, [] => []
  | offset, p :: ps => ⟨Itoa pageSize, Itoa offset⟩ :: requests pageSize (offset + p.length) ps

/-- The page size a call with the given options asks for, when the option
is absent or an `int`. -/
def pageSizeOf (opts : List (String × OptValue)) : Option Int :=
  match opts.lookup "page_size" with
  | none => some 1000
  | some (.int v) => some v
  | some .other => none

/-- The transport replies to the call made after `n` earlier ones with a
body that decodes to the page `p`, whatever parameters it is called with. -/
def ServesAlways {β : Type} (c : Transport β) (n : Nat) (p : List EndpointRef) : Prop :=
  ∀ params, ∃ b resp, c.callAPI n "GET" "clients" params = .ok b
    ∧ c.unmarshal b = .ok resp ∧ resp.ClientEndpoints = p

/-- The call made after `n` earlier ones, for `pageSize` records from `offset`
on, fails with the error `msg`: either `callAPI` returns it, or the body does
not decode and `msg` wraps the decoder's error. -/
def FailsAt {β : Type} (c : Transport β) (pageSize : Int) (n : Nat) (offset : Int)
    (msg : String) : Prop :=
  c.callAPI n "GET" "clients" ⟨Itoa pageSize, Itoa offset⟩ = .error msg
    ∨ ∃ b err, c.callAPI n "GET" "clients" ⟨Itoa pageSize, Itoa offset⟩ = .ok b
        ∧ c.unmarshal b = .error err ∧ msg = "failed unmarshalling response: " ++ err

/-- A transport whose every reply is a page without records. -/
def alwaysEmpty : Transport (List EndpointRef) where
  callAPI := fun _ _ _ _ => .ok []
  unmarshal := fun p => .ok { ClientEndpoints := p }

/-! ## Recognized fields, expected shapes, expected values

What the decoders are specified to do, read off the field sets of the four
`switch` statements: which keys an entity recognizes, which shape the value of
each must have, and the entity a mapping describes. -/

/-- The keys of a mapping, in the order visited. -/
def keysOf (m : List (String × JVal)) : List String := m.map Prod.fst

/-- The value is a JSON string. -/
def JVal.isStr : JVal → Bool
  | .str _ => true
  | _ => false

/-- The value is a JSON number. -/
def JVal.isNum : JVal → Bool
  | .num _ => true
  | _ => false

/-- The value is a JSON array. -/
def JVal.isArr : JVal → Bool
  | .arr _ => true
  | _ => false

/-- The value is a JSON object. -/
def JVal.isObj : JVal → Bool
  | .obj _ => true
  | _ => false

/-- The string under key `k`, or `dflt` when the key is absent. -/
def strAt (m : List (String × JVal)) (k : String) (dflt : String) : String :=
  match m.lookup k with
  | some (.str s) => s
  | _ => dflt

/-- The number under key `k`, or `dflt` when the key is absent. -/
def numAt (m : List (String × JVal)) (k : String) (dflt : Number) : Number :=
  match m.lookup k with
  | some (.num n) => n
  | _ => dflt

/-- The strings of an array of strings, in array order. -/
def strsOf : List JVal → List String
  | [] => []
  | .str s :: rest => s :: strsOf rest
  | _ :: rest => strsOf rest

/-- The keys `Event.load` recognizes. -/
def Event.fields : List String := ["actor", "event", "npa_status", "status", "timestamp"]

/-- The value has the shape `Event.load` expects under the recognized key `k`. -/
def Event.shape (k : String) (v : JVal) : Bool :=
  if k = "timestamp" then v.isNum else v.isStr

/-- A mapping with distinct keys, all recognized by `Event.load`, each with a
value of the expected shape. -/
def Event.wf (m : List (String × JVal)) : Bool :=
  decide (keysOf m).Nodup && m.all (fun p => decide (p.1 ∈ Event.fields) && Event.shape p.1 p.2)

/-- The event `e` with every field whose key is present in `m` set to the
value supplied, every other field left as it is. -/
def Event.overlay (e : Event) (m : List (String × JVal)) : Event :=
  { Actor := strAt m "actor" e.Actor
    Name := strAt m "event" e.Name
    NpaStatus := strAt m "npa_status" e.NpaStatus
    Status := strAt m "status" e.Status
    Timestamp := numAt m "timestamp" e.Timestamp }

/-- The event a mapping describes: supplied values, zero values elsewhere. -/
def Event.expected (m : List (String × JVal)) : Event := Event.overlay {} m

/-- The keys `Host.load` recognizes. -/
def Host.fields : List String :=
  ["device_make", "device_model", "hostname", "managementID", "os", "os_version", "nsdeviceuid"]

/-- The value has the shape `Host.load` expects: every field is a string. -/
def Host.shape (_k : String) (v : JVal) : Bool := v.isStr

/-- A mapping with distinct keys, all recognized by `Host.load`, each with a
value of the expected shape. -/
def Host.wf (m : List (String × JVal)) : Bool :=
  decide (keysOf m).Nodup && m.all (fun p => decide (p.1 ∈ Host.fields) && Host.shape p.1 p.2)

/-- The host `h` with every field whose key is present in `m` set to the
value supplied, every other field left as it is. -/
def Host.overlay (h : Host) (m : List (String × JVal)) : Host :=
  { DeviceMake := strAt m "device_make" h.DeviceMake
    DeviceModel := strAt m "device_model" h.DeviceModel
    Hostname := strAt m "hostname" h.Hostname
    ManagementID := strAt m "managementID" h.ManagementID
    OperatingSystemName := strAt m "os" h.OperatingSystemName
    OperatingSystemVersion := strAt m "os_version" h.OperatingSystemVersion
    NsDeviceUID := strAt m "nsdeviceuid" h.NsDeviceUID }

/-- The host a mapping describes: supplied values, zero values elsewhere. -/
def Host.expected (m : List (String × JVal)) : Host := Host.overlay {} m

/-- The keys `User.load` recognizes. -/
def User.fields : List String :=
  ["_id", "device_classification_status", "last_event", "organization_unit", "user_added_time",
    "user_groups", "user_source", "userkey", "username"]

/-- The value has the shape `User.load` expects under the recognized key `k`:
a well-formed event mapping, a number, an array of strings, or a string. -/
def User.shape (k : String) (v : JVal) : Bool :=
  if k = "last_event" then
    match v with
    | .obj em => Event.wf em
    | _ => false
  else if k = "user_added_time" then v.isNum
  else if k = "user_groups" then
    match v with
    | .arr gs => gs.all JVal.isStr
    | _ => false
  else v.isStr

/-- A mapping with distinct keys, all recognized by `User.load`, each with a
value of the expected shape. -/
def User.wf (m : List (String × JVal)) : Bool :=
  decide (keysOf m).Nodup && m.all (fun p => decide (p.1 ∈ User.fields) && User.shape p.1 p.2)

/-- The user `u` with every field whose key is present in `m` set to the
value supplied (groups appended in array order, the event decoded from its
own mapping), every other field left as it is. -/
def User.overlay (u : User) (m : List (String × JVal)) : User :=
  { ID := strAt m "_id" u.ID
    DeviceClassificationStatus := strAt m "device_classification_status" u.DeviceClassificationStatus
    LastEvent :=
      match m.lookup "last_event" with
      | some (.obj em) => some (Event.expected em)
      | _ => u.LastEvent
    OrganizationUnit := strAt m "organization_unit" u.OrganizationUnit
    AddedTimestamp := numAt m "user_added_time" u.AddedTimestamp
    Groups :=
      match m.lookup "user_groups" with
      | some (.arr gs) => u.Groups ++ strsOf gs
      | _ => u.Groups
    Source := strAt m "user_source" u.Source
    Key := strAt m "userkey" u.Key
    Username := strAt m "username" u.Username }

/-- The user a mapping describes: supplied values, zero values elsewhere. -/
def User.expected (m : List (String × JVal)) : User := User.overlay {} m

/-- The users an array of user mappings describes, in array order. -/
def usersOf : List JVal → List User
  | [] => []
  | .obj um :: rest => User.expected um :: usersOf rest
  | _ :: rest => usersOf rest

/-- The keys of `attributes` that `ClientEndpoint.UnmarshalJSON` recognizes. -/
def ClientEndpoint.fields : List String :=
  ["_id", "device_id", "client_install_time", "client_version", "users", "host_info", "last_event"]

/-- An element of the `users` array as `UnmarshalJSON` expects it: a
well-formed user mapping. -/
def userShape : JVal → Bool
  | .obj um => User.wf um
  | _ => false

/-- The value has the shape `ClientEndpoint.UnmarshalJSON` expects under the
recognized key `k`. -/
def ClientEndpoint.shape (k : String) (v : JVal) : Bool :=
  if k = "client_install_time" then v.isNum
  else if k = "users" then
    match v with
    | .arr us => us.all userShape
    | _ => false
  else if k = "host_info" then
    match v with
    | .obj hm => Host.wf hm
    | _ => false
  else if k = "last_event" then
    match v with
    | .obj em => Event.wf em
    | _ => false
  else v.isStr

/-- An `attributes` mapping with distinct keys, all recognized, each with a
value of the expected shape. -/
def ClientEndpoint.wf (m : List (String × JVal)) : Bool :=
  decide (keysOf m).Nodup
    && m.all (fun p => decide (p.1 ∈ ClientEndpoint.fields) && ClientEndpoint.shape p.1 p.2)

/-- The endpoint `c` with every field whose key is present in `m` set to the
value supplied (users appended in array order, host and event decoded from
their own mappings), every other field left as it is. -/
def ClientEndpoint.overlay (c : ClientEndpoint) (m : List (String × JVal)) : ClientEndpoint :=
  { ID := strAt m "_id" c.ID
    DeviceID := strAt m "device_id" c.DeviceID
    InstallTimestamp := numAt m "client_install_time" c.InstallTimestamp
    Version := strAt m "client_version" c.Version
    Users :=
      match m.lookup "users" with
      | some (.arr us) => c.Users ++ usersOf us
      | _ => c.Users
    HostInfo :=
      match m.lookup "host_info" with
      | some (.obj hm) => some (Host.expected hm)
      | _ => c.HostInfo
    LastEvent :=
      match m.lookup "last_event" with
      | some (.obj em) => some (Event.expected em)
      | _ => c.LastEvent }

/-- The endpoint an `attributes` mapping describes: supplied values, zero
values elsewhere. -/
def ClientEndpoint.expected (m : List (String × JVal)) : ClientEndpoint :=
  ClientEndpoint.overlay {} m

/-- The kinds of value the type assertions of the decoders ask for. -/
inductive Kind where
  | string
  | number
  | array
  | mapping
  deriving DecidableEq, Repr

/-- The type assertion for the kind succeeds on the value. -/
def Kind.admits : Kind → JVal → Bool
  | .string, v => v.isStr
  | .number, v => v.isNum
  | .array, v => v.isArr
  | .mapping, v => v.isObj

/-- The assertion `Event.load` makes on the value of the recognized key `k`. -/
def Event.kind (k : String) : Kind :=
  if k = "timestamp" then .number else .string

/-- The assertion `Host.load` makes on the value of a recognized key. -/
def Host.kind (_k : String) : Kind := .string

/-- The assertion `User.load` makes on the value of the recognized key `k`. -/
def User.kind (k : String) : Kind :=
  if k = "last_event" then .mapping
  else if k = "user_added_time" then .number
  else if k = "user_groups" then .array
  else .string

/-- The assertion `ClientEndpoint.UnmarshalJSON` makes on the value of the
recognized key `k` of `attributes`. -/
def ClientEndpoint.kind (k : String) : Kind :=
  if k = "client_install_time" then .number
  else if k = "users" then .array
  else if k = "host_info" then .mapping
  else if k = "last_event" then .mapping
  else .string

/-! ## The envelope decoder

How `json.Unmarshal(b, &resp)` fills a fresh `ClientEndpointResponse`: the
`data` array is walked in order and every element that is not `null` is
handed, as raw bytes, to `ClientEndpoint.UnmarshalJSON` on a fresh endpoint;
the first element whose decode does not return `nil` ends the walk, with that
error returned unchanged or with the panic passed on. -/

/-- A response body: text that `json.Unmarshal` rejects as not being a JSON
document, with the error it returns, or an envelope object whose `success`
and `msg` are strings and whose `data` is an array, given by its raw
elements. -/
inductive Body where
  | malformed (err : String)
  | envelope (success msg : String) (data : List Payload)

/-- The walk over the elements of `data`; `acc` holds the endpoints decoded
so far, a `null` element is a nil pointer. -/
def unmarshalData (success msg : String) : List Payload → List EndpointRef → Unmarshalled
  | [], acc => .ok { Status := success, Message := msg, ClientEndpoints := acc }
  | p :: rest, acc =>
    match p.json with
    | some .null => unmarshalData success msg rest (acc ++ [none])
    | _ =>
      match ClientEndpoint.UnmarshalJSON {} p with
      | .ok c => unmarshalData success msg rest (acc ++ [some c])
      | .error _ err => .error err
      | .panic _ => .panic

/-- The call `json.Unmarshal(b, &resp)` on a response body. -/
def unmarshalBody : Body → Unmarshalled
  | .malformed err => .error err
  | .envelope success msg data => unmarshalData success msg data []

/-- A transport that hands out the given replies in turn, whatever is asked,
fails once they are used up, and decodes bodies with `json.Unmarshal`. -/
def replying (replies : List (Except String Body)) : Transport Body where
  callAPI := fun n _ _ _ =>
    match replies.get? n with
    | some r => r
    | none => .error "error: status code 500: "
  unmarshal := unmarshalBody

/-- The call made after `n` earlier ones, for `pageSize` records from `offset`
on, is answered, and decoding the body panics. -/
def PanicsAt {β : Type} (c : Transport β) (pageSize : Int) (n : Nat) (offset : Int) : Prop :=
  ∃ b, c.callAPI n "GET" "clients" ⟨Itoa pageSize, Itoa offset⟩ = .ok b
    ∧ c.unmarshal b = .panic

end Netskope

open Netskope

/-! ## Lemmas on the retrieval loop -/

theorem requests_length (pageSize offset : Int) (pages : List (List EndpointRef)) :
    (requests pageSize offset pages).length = pages.length := by
  induction pages generalizing offset with
  | nil => rfl
  | cons p ps ih => simp [requests, ih]

theorem recordCount_cons (p : List EndpointRef) (ps : List (List EndpointRef)) :
    recordCount (p :: ps) = p.length + recordCount ps := by
  simp [recordCount]

theorem requests_append (pageSize offset : Int) (pages more : List (List EndpointRef)) :
    requests pageSize offset (pages ++ more)
      = requests pageSize offset pages ++ requests pageSize (offset + recordCount pages) more := by
  induction pages generalizing offset with
  | nil => simp [requests, recordCount]
  | cons p ps ih =>
    have e : offset + ((recordCount (p :: ps) : Nat) : Int)
        = offset + (p.length : Int) + ((recordCount ps : Nat) : Int) := by
      rw [recordCount_cons]; push_cast; ring
    rw [e, List.cons_append, requests, requests, ih, List.cons_append]

theorem serves_append {β : Type} (c : Transport β) (pageSize : Int) (n : Nat) (offset : Int)
    (pages more : List (List EndpointRef)) :
    Serves c pageSize n offset (pages ++ more)
      ↔ Serves c pageSize n offset pages
        ∧ Serves c pageSize (n + pages.length) (offset + recordCount pages) more := by
  induction pages generalizing n offset with
  | nil => simp [Serves, recordCount]
  | cons p ps ih =>
    have e1 : n + (p :: ps).length = n + 1 + ps.length := by simp; omega
    have e2 : offset + ((recordCount (p :: ps) : Nat) : Int)
        = offset + (p.length : Int) + ((recordCount ps : Nat) : Int) := by
      rw [recordCount_cons]; push_cast; ring
    rw [e1, e2, List.cons_append, Serves, Serves, ih, and_assoc]

/-- Full pages carry the loop forward: one iteration per page. -/
theorem loop_advance {β : Type} (c : Transport β) (pageSize : Int)
    (pages : List (List EndpointRef)) (fuel : Nat) (offset : Int)
    (endpoints : List EndpointRef) (calls : List Params)
    (hs : Serves c pageSize calls.length offset pages)
    (hfull : ∀ p ∈ pages, pageSize ≤ (p.length : Int)) :
    GetClientEndpoints.loop c pageSize (pages.length + fuel) offset endpoints calls
      = GetClientEndpoints.loop c pageSize fuel (offset + recordCount pages)
          (endpoints ++ pages.flatten) (calls ++ requests pageSize offset pages) := by
  induction pages generalizing offset endpoints calls with
  | nil => simp [recordCount, requests]
  | cons p ps ih =>
    obtain ⟨⟨b, resp, hb, hr, hp⟩, hrest⟩ := hs
    have hp1 : pageSize ≤ (p.length : Int) := hfull p (List.mem_cons_self _ _)
    have e : (p :: ps).length + fuel = (ps.length + fuel) + 1 := by simp; omega
    rw [e, GetClientEndpoints.loop]
    simp only [hb, hr, hp]
    rw [if_neg (by omega)]
    have hlen : (calls ++ [({ limit := Itoa pageSize, skip := Itoa offset } : Params)]).length
        = calls.length + 1 := by simp
    rw [ih (offset + p.length) (endpoints ++ p) _ (by rw [hlen]; exact hrest)
      (fun q hq => hfull q (List.mem_cons_of_mem _ hq))]
    simp [recordCount_cons, requests, add_assoc]

theorem getClientEndpoints_eq_loop {β : Type} (c : Transport β) (opts : List (String × OptValue))
    (pageSize : Int) (fuel : Nat) (hopts : pageSizeOf opts = some pageSize) :
    GetClientEndpoints c opts fuel = GetClientEndpoints.loop c pageSize fuel 0 [] [] := by
  unfold pageSizeOf at hopts
  unfold GetClientEndpoints
  split at hopts <;> simp_all

/-- A run over full pages followed by a short one: the whole run. -/
theorem loop_short_page {β : Type} (c : Transport β) (pageSize : Int)
    (pages : List (List EndpointRef)) (last : List EndpointRef) (fuel : Nat)
    (hs : Serves c pageSize 0 0 (pages ++ [last]))
    (hfull : ∀ p ∈ pages, pageSize ≤ (p.length : Int))
    (hshort : (last.length : Int) < pageSize)
    (hfuel : pages.length < fuel) :
    GetClientEndpoints.loop c pageSize fuel 0 [] []
      = some ⟨requests pageSize 0 (pages ++ [last]),
          .returned ((pages ++ [last]).flatten) none⟩ := by
  obtain ⟨f, rfl⟩ : ∃ f, fuel = pages.length + (f + 1) := ⟨fuel - pages.length - 1, by omega⟩
  rw [serves_append] at hs
  obtain ⟨hpre, ⟨b, resp, hb, hr, hp⟩, -⟩ := hs
  rw [loop_advance c pageSize pages (f + 1) 0 [] [] hpre hfull, GetClientEndpoints.loop]
  have hlen : ([] ++ requests pageSize 0 pages).length = 0 + pages.length := by
    simp [requests_length]
  rw [hlen]
  simp only [hb, hr, hp]
  rw [if_pos hshort, requests_append]
  simp [requests]

/-- The skip of the request for page `k` is the number of records before it. -/
theorem requests_get (pageSize offset : Int) (pages : List (List EndpointRef)) (k : Nat)
    (hk : k < pages.length) :
    (requests pageSize offset pages).get? k
      = some ⟨Itoa pageSize, Itoa (offset + recordCount (pages.take k))⟩ := by
  induction pages generalizing offset k with
  | nil => simp at hk
  | cons p ps ih =>
    cases k with
    | zero => simp [requests, recordCount]
    | succ k =>
      have hk1 : k < ps.length := by simpa using hk
      have e : offset + ((recordCount ((p :: ps).take (k + 1)) : Nat) : Int)
          = offset + (p.length : Int) + ((recordCount (ps.take k) : Nat) : Int) := by
        rw [List.take_succ_cons, recordCount_cons]; push_cast; ring
      rw [e]
      simpa [requests] using ih (offset + p.length) k hk1

theorem serves_of_servesAlways {β : Type} (c : Transport β) (pageSize : Int)
    (pages : List (List EndpointRef)) (n : Nat) (offset : Int)
    (h : ∀ k p, pages.get? k = some p → ServesAlways c (n + k) p) :
    Serves c pageSize n offset pages := by
  induction pages generalizing n offset with
  | nil => trivial
  | cons p ps ih =>
    refine ⟨h 0 p rfl _, ih (n + 1) _ (fun k q hq => ?_)⟩
    have := h (k + 1) q (by simpa using hq)
    rwa [show n + (k + 1) = n + 1 + k by omega] at this

theorem scripted_servesAlways (pages : List (List EndpointRef)) (k : Nat) (p : List EndpointRef)
    (h : pages.get? k = some p) : ServesAlways (scripted pages) k p := by
  intro params
  refine ⟨p, ⟨"", "", p⟩, ?_, rfl, rfl⟩
  show (match pages.get? k with
    | some p => Except.ok p
    | none => Except.error "error: status code 500: ") = _
  rw [h]

/-- A run over full pages followed by a failing call: the whole run. -/
theorem loop_failing_call {β : Type} (c : Transport β) (pageSize : Int)
    (pages : List (List EndpointRef)) (msg : String) (fuel : Nat)
    (hs : Serves c pageSize 0 0 pages)
    (hfull : ∀ p ∈ pages, pageSize ≤ (p.length : Int))
    (hfail : FailsAt c pageSize pages.length (recordCount pages) msg)
    (hfuel : pages.length < fuel) :
    GetClientEndpoints.loop c pageSize fuel 0 [] []
      = some ⟨requests pageSize 0 pages ++ [⟨Itoa pageSize, Itoa (recordCount pages)⟩],
          .returned pages.flatten (some msg)⟩ := by
  obtain ⟨f, rfl⟩ : ∃ f, fuel = pages.length + (f + 1) := ⟨fuel - pages.length - 1, by omega⟩
  rw [loop_advance c pageSize pages (f + 1) 0 [] [] hs hfull, GetClientEndpoints.loop]
  have hlen : ([] ++ requests pageSize 0 pages).length = pages.length := by
    simp [requests_length]
  rw [hlen]
  rcases hfail with h | ⟨b, err, hb, hr, rfl⟩
  · simp [h]
  · simp [hb, hr]

/-- With page size 0 an empty page is not short: the loop goes on. -/
theorem loop_alwaysEmpty_zero (fuel : Nat) (offset : Int) (endpoints : List EndpointRef)
    (calls : List Params) :
    GetClientEndpoints.loop alwaysEmpty 0 fuel offset endpoints calls = none := by
  induction fuel generalizing offset endpoints calls with
  | zero => rfl
  | succ f ih =>
    rw [GetClientEndpoints.loop]
    simp only [alwaysEmpty, List.length_nil, Nat.cast_zero, lt_self_iff_false, if_false]
    exact ih _ _ _

/-! ## The retrieval loop: claims -/

/-- C1. Pagination termination and concatenation: when the transport serves
pages `p1..pn` of which the last is the first with fewer than `pageSize`
records, `GetClientEndpoints` (given fuel for `n` iterations or more) makes
exactly `n` calls, returns a nil error, and returns `p1 ++ ... ++ pn` in the
order received. -/
theorem getClientEndpoints_concatenates {β : Type} (c : Transport β)
    (opts : List (String × OptValue)) (pageSize : Int)
    (pages : List (List EndpointRef)) (last : List EndpointRef) (fuel : Nat)
    (hopts : pageSizeOf opts = some pageSize)
    (hs : Serves c pageSize 0 0 (pages ++ [last]))
    (hfull : ∀ p ∈ pages, pageSize ≤ (p.length : Int))
    (hshort : (last.length : Int) < pageSize)
    (hfuel : pages.length < fuel) :
    ∃ calls, GetClientEndpoints c opts fuel
        = some ⟨calls, .returned ((pages ++ [last]).flatten) none⟩
      ∧ calls.length = (pages ++ [last]).length := by
  refine ⟨requests pageSize 0 (pages ++ [last]), ?_, requests_length _ _ _⟩
  rw [getClientEndpoints_eq_loop c opts pageSize fuel hopts]
  exact loop_short_page c pageSize pages last fuel hs hfull hshort hfuel

theorem getClientEndpoints_concatenates_witness :
    ∃ calls, GetClientEndpoints (scripted [[none, none], [none, none], [some {}]])
        [("page_size", .int 2)] 7
        = some ⟨calls, .returned [none, none, none, none, some {}] none⟩
      ∧ calls.length = 3 :=
  getClientEndpoints_concatenates (scripted [[none, none], [none, none], [some {}]])
    [("page_size", .int 2)] 2 [[none, none], [none, none]] [some {}] 7 rfl
    ⟨⟨_, _, rfl, rfl, rfl⟩, ⟨_, _, rfl, rfl, rfl⟩, ⟨_, _, rfl, rfl, rfl⟩, trivial⟩
    (by decide) (by decide) (by decide)

/-- C2. Offset advancement: in a run over pages `p1..pn` (each served whatever
is asked), the `k`-th call carries `limit = pageSize` and `skip` = the number
of records in the pages before it.  With page size 2 and pages of 2, 2 and 1
records there are 3 calls, at offsets 0, 2, 4, and 5 records come back; with
pages of 3 and 1 records the second call skips 3, not the page size 2. -/
theorem getClientEndpoints_offsets :
    (∀ {β : Type} (c : Transport β) (opts : List (String × OptValue)) (pageSize : Int)
        (pages : List (List EndpointRef)) (last : List EndpointRef) (fuel : Nat),
        pageSizeOf opts = some pageSize →
        (∀ k p, (pages ++ [last]).get? k = some p → ServesAlways c k p) →
        (∀ p ∈ pages, pageSize ≤ (p.length : Int)) →
        (last.length : Int) < pageSize →
        pages.length < fuel →
        ∃ run, GetClientEndpoints c opts fuel = some run
          ∧ run.calls.length = (pages ++ [last]).length
          ∧ ∀ k, k < (pages ++ [last]).length →
              run.calls.get? k
                = some ⟨Itoa pageSize, Itoa (recordCount ((pages ++ [last]).take k))⟩)
    ∧ (∀ r1 r2 r3 r4 r5 : EndpointRef,
        GetClientEndpoints (scripted [[r1, r2], [r3, r4], [r5]]) [("page_size", .int 2)] 3
          = some ⟨[⟨"2", "0"⟩, ⟨"2", "2"⟩, ⟨"2", "4"⟩], .returned [r1, r2, r3, r4, r5] none⟩)
    ∧ (∀ r1 r2 r3 r4 : EndpointRef,
        GetClientEndpoints (scripted [[r1, r2, r3], [r4]]) [("page_size", .int 2)] 2
          = some ⟨[⟨"2", "0"⟩, ⟨"2", "3"⟩], .returned [r1, r2, r3, r4] none⟩) := by
  refine ⟨?_, ?_, ?_⟩
  rotate_left
  · intro r1 r2 r3 r4 r5
    simp [GetClientEndpoints, GetClientEndpoints.loop, scripted, Itoa]
    decide
  · intro r1 r2 r3 r4
    simp [GetClientEndpoints, GetClientEndpoints.loop, scripted, Itoa]
    decide
  intro β c opts pageSize pages last fuel hopts hs hfull hshort hfuel
  have hs2 : Serves c pageSize 0 0 (pages ++ [last]) :=
    serves_of_servesAlways c pageSize _ 0 0 (fun k p hp => by simpa using hs k p hp)
  refine ⟨⟨requests pageSize 0 (pages ++ [last]), .returned ((pages ++ [last]).flatten) none⟩,
    ?_, requests_length pageSize 0 (pages ++ [last]), fun k hk => ?_⟩
  · rw [getClientEndpoints_eq_loop c opts pageSize fuel hopts]
    exact loop_short_page c pageSize pages last fuel hs2 hfull hshort hfuel
  · simpa using requests_get pageSize 0 (pages ++ [last]) k hk

theorem getClientEndpoints_offsets_witness :
    ∃ run, GetClientEndpoints (scripted [[none, none, none], [none]]) [("page_size", .int 2)] 4
        = some run
      ∧ run.calls.length = 2
      ∧ ∀ k, k < 2 → run.calls.get? k
          = some ⟨Itoa 2, Itoa (recordCount (([[none, none, none]] ++ [[none]]).take k))⟩ :=
  getClientEndpoints_offsets.1 (scripted [[none, none, none], [none]])
    [("page_size", .int 2)] 2 [[none, none, none]] [none] 4 rfl
    (fun k p hp => scripted_servesAlways _ k p hp)
    (by decide) (by decide) (by decide)

/-- C7, as stated, fails for page size 0: the first call succeeds with an
envelope of zero records, yet a second call is made, and here the run ends
with that call's error; against a transport that always serves an empty page
the loop never stops, whatever the fuel. -/
theorem getClientEndpoints_empty_page_size_zero :
    ServesPage (scripted [[]]) 0 0 0 []
    ∧ GetClientEndpoints (scripted [[]]) [("page_size", .int 0)] 2
        = some ⟨[⟨"0", "0"⟩, ⟨"0", "0"⟩], .returned [] (some "error: status code 500: ")⟩
    ∧ ∀ fuel, GetClientEndpoints alwaysEmpty [("page_size", .int 0)] fuel = none :=
  ⟨⟨_, _, rfl, rfl, rfl⟩, by decide, fun fuel => loop_alwaysEmpty_zero fuel 0 [] []⟩

/-- C7, amended. Empty page terminates, for a page size of 1 or more: when a
call in `GetClientEndpoints` (the one after `pages`, each of them full)
succeeds with an envelope of zero records, the loop stops after that call and
the records accumulated so far are returned with a nil error. -/
theorem getClientEndpoints_empty_page_stops {β : Type} (c : Transport β)
    (opts : List (String × OptValue)) (pageSize : Int)
    (pages : List (List EndpointRef)) (fuel : Nat)
    (hopts : pageSizeOf opts = some pageSize)
    (hpos : 0 < pageSize)
    (hs : Serves c pageSize 0 0 pages)
    (hfull : ∀ p ∈ pages, pageSize ≤ (p.length : Int))
    (hempty : ServesPage c pageSize pages.length (recordCount pages) [])
    (hfuel : pages.length < fuel) :
    ∃ calls, GetClientEndpoints c opts fuel = some ⟨calls, .returned pages.flatten none⟩
      ∧ calls.length = pages.length + 1 := by
  have hs2 : Serves c pageSize 0 0 (pages ++ [[]]) := by
    rw [serves_append]
    exact ⟨hs, by simpa using hempty, trivial⟩
  refine ⟨requests pageSize 0 (pages ++ [[]]), ?_, by simp [requests_length]⟩
  rw [getClientEndpoints_eq_loop c opts pageSize fuel hopts,
    loop_short_page c pageSize pages [] fuel hs2 hfull (by simpa using hpos) hfuel]
  simp

theorem getClientEndpoints_empty_page_stops_witness :
    ∃ calls, GetClientEndpoints (scripted [[none], []]) [("page_size", .int 1)] 2
        = some ⟨calls, .returned [[none]].flatten none⟩
      ∧ calls.length = ([[none]] : List (List EndpointRef)).length + 1 :=
  getClientEndpoints_empty_page_stops (scripted [[none], []]) [("page_size", .int 1)] 1 [[none]] 2
    rfl (by decide) ⟨⟨_, _, rfl, rfl, rfl⟩, trivial⟩ (by decide) ⟨_, _, rfl, rfl, rfl⟩ (by decide)

/-! ## Lemmas on mappings and on the range loop -/

theorem rangeLoop_append {σ : Type} (body : σ → String → JVal → Result σ) (s s' : σ)
    (pre rest : List (String × JVal)) (h : rangeLoop body s pre = .ok s') :
    rangeLoop body s (pre ++ rest) = rangeLoop body s' rest := by
  induction pre generalizing s with
  | nil => simp [rangeLoop] at h; subst h; rfl
  | cons p ps ih =>
    obtain ⟨k, v⟩ := p
    simp only [rangeLoop, List.cons_append] at h ⊢
    cases hb : body s k v with
    | ok s1 => rw [hb] at h; simpa using ih s1 h
    | error s1 msg => rw [hb] at h; simp at h
    | panic s1 => rw [hb] at h; simp at h

theorem lookup_of_not_mem_keys (m : List (String × JVal)) (k : String) (h : k ∉ keysOf m) :
    m.lookup k = none := by
  induction m with
  | nil => rfl
  | cons p ps ih =>
    obtain ⟨k', v⟩ := p
    simp only [keysOf, List.map_cons, List.mem_cons, not_or] at h
    rw [List.lookup_cons]
    have : (k == k') = false := by simpa using h.1
    rw [this]
    exact ih h.2

theorem lookup_eq_some_iff_mem (m : List (String × JVal)) (hnd : (keysOf m).Nodup) (k : String)
    (v : JVal) : m.lookup k = some v ↔ (k, v) ∈ m := by
  induction m with
  | nil => simp
  | cons p ps ih =>
    obtain ⟨k', v'⟩ := p
    simp only [keysOf, List.map_cons, List.nodup_cons] at hnd
    rw [List.lookup_cons]
    by_cases hk : k = k'
    · subst hk
      have hnot : ∀ w, (k, w) ∉ ps := fun w hw => hnd.1 (List.mem_map_of_mem Prod.fst hw)
      simp only [beq_self_eq_true, Option.some.injEq, List.mem_cons, Prod.mk.injEq, true_and]
      constructor
      · intro h; exact Or.inl h.symm
      · rintro (h | h)
        · exact h.symm
        · exact absurd h (hnot v)
    · have : (k == k') = false := by simpa using hk
      rw [this]
      simp only [List.mem_cons, Prod.mk.injEq, hk, false_and, false_or]
      exact ih hnd.2

theorem lookup_perm (m m' : List (String × JVal)) (hp : m'.Perm m) (hnd : (keysOf m).Nodup)
    (k : String) : m'.lookup k = m.lookup k := by
  have hnd' : (keysOf m').Nodup := (hp.map Prod.fst).nodup_iff.mpr hnd
  apply Option.ext
  intro v
  simp only [Option.mem_def]
  rw [lookup_eq_some_iff_mem m' hnd', lookup_eq_some_iff_mem m hnd]
  exact hp.mem_iff

theorem lookup_cons_ne (m : List (String × JVal)) (k k' : String) (v : JVal) (h : k ≠ k') :
    List.lookup k ((k', v) :: m) = List.lookup k m := by
  rw [List.lookup_cons]
  have : (k == k') = false := by simpa using h
  rw [this]

theorem lookup_cons_eq (m : List (String × JVal)) (k : String) (v : JVal) :
    List.lookup k ((k, v) :: m) = some v := by
  rw [List.lookup_cons]; simp

theorem strAt_cons_ne (m : List (String × JVal)) (k k' : String) (v : JVal) (d : String)
    (h : k ≠ k') : strAt ((k', v) :: m) k d = strAt m k d := by
  simp [strAt, lookup_cons_ne m k k' v h]

theorem strAt_cons_eq (m : List (String × JVal)) (k : String) (s d : String)
    (h : k ∉ keysOf m) : strAt ((k, .str s) :: m) k d = strAt m k s := by
  simp [strAt, lookup_cons_eq, lookup_of_not_mem_keys m k h]

theorem numAt_cons_ne (m : List (String × JVal)) (k k' : String) (v : JVal) (d : Number)
    (h : k ≠ k') : numAt ((k', v) :: m) k d = numAt m k d := by
  simp [numAt, lookup_cons_ne m k k' v h]

theorem numAt_cons_eq (m : List (String × JVal)) (k : String) (n d : Number)
    (h : k ∉ keysOf m) : numAt ((k, .num n) :: m) k d = numAt m k n := by
  simp [numAt, lookup_cons_eq, lookup_of_not_mem_keys m k h]

/-- Unfolding of a well-formedness test on a non-empty mapping. -/
theorem wf_cons_iff (fields : List String) (shape : String → JVal → Bool) (k : String) (v : JVal)
    (rest : List (String × JVal)) :
    (decide (keysOf ((k, v) :: rest)).Nodup
        && ((k, v) :: rest).all (fun p => decide (p.1 ∈ fields) && shape p.1 p.2)) = true
      ↔ k ∉ keysOf rest ∧ k ∈ fields ∧ shape k v = true
        ∧ (decide (keysOf rest).Nodup
            && rest.all (fun p => decide (p.1 ∈ fields) && shape p.1 p.2)) = true := by
  simp only [keysOf, List.map_cons, List.nodup_cons, List.all_cons, Bool.and_eq_true,
    decide_eq_true_eq]
  tauto

/-! ## event.go: the decoded value -/

theorem event_load_wf (m : List (String × JVal)) (e : Event) (h : Event.wf m = true) :
    Event.load e m = .ok (Event.overlay e m) := by
  induction m generalizing e with
  | nil => rfl
  | cons p rest ih =>
    obtain ⟨k, v⟩ := p
    obtain ⟨hk, hf, hs, hrest⟩ := (wf_cons_iff Event.fields Event.shape k v rest).mp h
    have ih' := fun e' => ih e' hrest
    simp only [Event.load] at ih' ⊢
    simp only [Event.fields, List.mem_cons, List.mem_singleton, List.not_mem_nil, or_false] at hf
    rcases hf with rfl | rfl | rfl | rfl | rfl <;>
      cases v <;> simp [Event.shape, JVal.isStr, JVal.isNum] at hs <;>
      simp [rangeLoop, Event.loadEntry, ih', Event.overlay, strAt_cons_ne, numAt_cons_ne,
        strAt_cons_eq _ _ _ _ hk, numAt_cons_eq _ _ _ _ hk]

/-! ## host.go: the decoded value -/

theorem host_load_wf (m : List (String × JVal)) (h : Host) (hwf : Host.wf m = true) :
    Host.load h m = .ok (Host.overlay h m) := by
  induction m generalizing h with
  | nil => rfl
  | cons p rest ih =>
    obtain ⟨k, v⟩ := p
    obtain ⟨hk, hf, hs, hrest⟩ := (wf_cons_iff Host.fields Host.shape k v rest).mp hwf
    have ih' := fun h' => ih h' hrest
    simp only [Host.load] at ih' ⊢
    simp only [Host.fields, List.mem_cons, List.mem_singleton, List.not_mem_nil, or_false] at hf
    rcases hf with rfl | rfl | rfl | rfl | rfl | rfl | rfl <;>
      cases v <;> simp [Host.shape, JVal.isStr] at hs <;>
      simp [rangeLoop, Host.loadEntry, ih', Host.overlay, strAt_cons_ne,
        strAt_cons_eq _ _ _ _ hk]

/-! ## user.go: the decoded value -/

theorem user_appendGroups_strs (gs : List JVal) (u : User) (h : gs.all JVal.isStr = true) :
    User.appendGroups u gs = .ok { u with Groups := u.Groups ++ strsOf gs } := by
  induction gs generalizing u with
  | nil => simp [User.appendGroups, strsOf]
  | cons g rest ih =>
    rw [List.all_cons, Bool.and_eq_true] at h
    obtain ⟨h1, h2⟩ := h
    cases g <;> simp [JVal.isStr] at h1
    simp [User.appendGroups, strsOf, ih _ h2]

theorem user_load_wf (m : List (String × JVal)) (u : User) (hwf : User.wf m = true) :
    User.load u m = .ok (User.overlay u m) := by
  induction m generalizing u with
  | nil => rfl
  | cons p rest ih =>
    obtain ⟨k, v⟩ := p
    obtain ⟨hk, hf, hs, hrest⟩ := (wf_cons_iff User.fields User.shape k v rest).mp hwf
    have ih' := fun u' => ih u' hrest
    clear ih hwf hrest
    simp only [User.load] at ih' ⊢
    simp only [User.fields, List.mem_cons, List.mem_singleton, List.not_mem_nil, or_false] at hf
    rcases hf with rfl | rfl | rfl | rfl | rfl | rfl | rfl | rfl | rfl <;>
      simp only [User.shape, String.reduceEq, if_false, if_true] at hs <;>
      cases v <;>
      simp only [JVal.isStr, JVal.isNum, Bool.false_eq_true] at hs <;>
      simp [rangeLoop, User.loadEntry, ih', User.overlay, strAt_cons_ne, numAt_cons_ne,
        strAt_cons_eq _ _ _ _ hk, numAt_cons_eq _ _ _ _ hk, lookup_cons_ne, lookup_cons_eq,
        lookup_of_not_mem_keys _ _ hk, event_load_wf _ _ _, user_appendGroups_strs _ _ _,
        Event.expected, hs]

/-! ## endpoint.go: the decoded value -/

theorem endpoint_appendUsers_shaped (k : String) (us : List JVal) (c : ClientEndpoint)
    (h : us.all userShape = true) :
    ClientEndpoint.appendUsers k c us = .ok { c with Users := c.Users ++ usersOf us } := by
  induction us generalizing c with
  | nil => simp [ClientEndpoint.appendUsers, usersOf]
  | cons u rest ih =>
    rw [List.all_cons, Bool.and_eq_true] at h
    obtain ⟨h1, h2⟩ := h
    cases u <;> simp only [userShape, Bool.false_eq_true] at h1
    simp [ClientEndpoint.appendUsers, usersOf, ih _ h2, user_load_wf _ _ h1, User.expected]

theorem endpoint_load_wf (m : List (String × JVal)) (c : ClientEndpoint)
    (hwf : ClientEndpoint.wf m = true) :
    ClientEndpoint.load c m = .ok (ClientEndpoint.overlay c m) := by
  induction m generalizing c with
  | nil => rfl
  | cons p rest ih =>
    obtain ⟨k, v⟩ := p
    obtain ⟨hk, hf, hs, hrest⟩ :=
      (wf_cons_iff ClientEndpoint.fields ClientEndpoint.shape k v rest).mp hwf
    have ih' := fun c' => ih c' hrest
    clear ih hwf hrest
    simp only [ClientEndpoint.load] at ih' ⊢
    simp only [ClientEndpoint.fields, List.mem_cons, List.mem_singleton, List.not_mem_nil,
      or_false] at hf
    rcases hf with rfl | rfl | rfl | rfl | rfl | rfl | rfl <;>
      simp only [ClientEndpoint.shape, String.reduceEq, if_false, if_true] at hs <;>
      cases v <;>
      simp only [JVal.isStr, JVal.isNum, Bool.false_eq_true] at hs <;>
      simp [rangeLoop, ClientEndpoint.loadEntry, ih', ClientEndpoint.overlay, strAt_cons_ne,
        numAt_cons_ne, strAt_cons_eq _ _ _ _ hk, numAt_cons_eq _ _ _ _ hk, lookup_cons_ne,
        lookup_cons_eq, lookup_of_not_mem_keys _ _ hk, event_load_wf _ _ _, host_load_wf _ _ _,
        endpoint_appendUsers_shaped _ _ _, Event.expected, Host.expected, hs]

/-- Order of the entries does not matter to a well-formedness test. -/
theorem wf_perm (fields : List String) (shape : String → JVal → Bool)
    (m m' : List (String × JVal)) (hp : m'.Perm m)
    (h : (decide (keysOf m).Nodup
        && m.all (fun p => decide (p.1 ∈ fields) && shape p.1 p.2)) = true) :
    (decide (keysOf m').Nodup
        && m'.all (fun p => decide (p.1 ∈ fields) && shape p.1 p.2)) = true := by
  rw [Bool.and_eq_true, decide_eq_true_eq, List.all_eq_true] at h ⊢
  exact ⟨(hp.map Prod.fst).nodup_iff.mpr h.1, fun p hp' => h.2 p (hp.mem_iff.mp hp')⟩

theorem event_overlay_perm (m m' : List (String × JVal)) (e : Event) (hp : m'.Perm m)
    (hnd : (keysOf m).Nodup) : Event.overlay e m' = Event.overlay e m := by
  simp [Event.overlay, strAt, numAt, lookup_perm m m' hp hnd]

theorem host_overlay_perm (m m' : List (String × JVal)) (h : Host) (hp : m'.Perm m)
    (hnd : (keysOf m).Nodup) : Host.overlay h m' = Host.overlay h m := by
  simp [Host.overlay, strAt, lookup_perm m m' hp hnd]

theorem user_overlay_perm (m m' : List (String × JVal)) (u : User) (hp : m'.Perm m)
    (hnd : (keysOf m).Nodup) : User.overlay u m' = User.overlay u m := by
  simp [User.overlay, strAt, numAt, lookup_perm m m' hp hnd]

theorem endpoint_overlay_perm (m m' : List (String × JVal)) (c : ClientEndpoint)
    (hp : m'.Perm m) (hnd : (keysOf m).Nodup) :
    ClientEndpoint.overlay c m' = ClientEndpoint.overlay c m := by
  simp [ClientEndpoint.overlay, strAt, numAt, lookup_perm m m' hp hnd]

theorem nodup_of_wf (fields : List String) (shape : String → JVal → Bool)
    (m : List (String × JVal))
    (h : (decide (keysOf m).Nodup
        && m.all (fun p => decide (p.1 ∈ fields) && shape p.1 p.2)) = true) :
    (keysOf m).Nodup := by
  rw [Bool.and_eq_true, decide_eq_true_eq] at h
  exact h.1

/-! ## The strict decoder: claims -/

/-- C8. Decoded value: for each of the four entities, a mapping whose keys are
distinct and all recognized and whose values all have the expected shape
decodes into a fresh entity without failure, to the entity the mapping
describes (supplied values, users and groups in array order, nested host and
event decoded by the same rule, zero values for absent keys), and it does so in
whatever order `m'` the entries of the mapping `m` are visited. -/
theorem decode_wellFormed_value :
    (∀ m m' : List (String × JVal), Event.wf m = true → m'.Perm m →
        Event.load {} m' = .ok (Event.expected m))
    ∧ (∀ m m' : List (String × JVal), Host.wf m = true → m'.Perm m →
        Host.load {} m' = .ok (Host.expected m))
    ∧ (∀ m m' : List (String × JVal), User.wf m = true → m'.Perm m →
        User.load {} m' = .ok (User.expected m))
    ∧ (∀ (b : Payload) (top attrs attrs' : List (String × JVal)),
        10 ≤ b.len → b.json = some (.obj top) → top.lookup "attributes" = some (.obj attrs') →
        ClientEndpoint.wf attrs = true → attrs'.Perm attrs →
        ClientEndpoint.UnmarshalJSON {} b = .ok (ClientEndpoint.expected attrs)) := by
  refine ⟨fun m m' h hp => ?_, fun m m' h hp => ?_, fun m m' h hp => ?_,
    fun b top attrs attrs' hlen hjson hattrs h hp => ?_⟩
  · rw [event_load_wf m' {} (wf_perm _ _ m m' hp h), Event.expected,
      event_overlay_perm m m' {} hp (nodup_of_wf _ _ m h)]
  · rw [host_load_wf m' {} (wf_perm _ _ m m' hp h), Host.expected,
      host_overlay_perm m m' {} hp (nodup_of_wf _ _ m h)]
  · rw [user_load_wf m' {} (wf_perm _ _ m m' hp h), User.expected,
      user_overlay_perm m m' {} hp (nodup_of_wf _ _ m h)]
  · have hlen' : ¬ b.len < 10 := by omega
    simp only [ClientEndpoint.UnmarshalJSON, hlen', if_false, unmarshalMap, hjson, hattrs]
    rw [endpoint_load_wf attrs' {} (wf_perm _ _ attrs attrs' hp h), ClientEndpoint.expected,
      endpoint_overlay_perm attrs attrs' {} hp (nodup_of_wf _ _ attrs h)]

theorem decode_wellFormed_value_witness :
    ClientEndpoint.UnmarshalJSON {}
        ⟨"\x7b\"attributes\":\x7b\"users\":[\x7b\"user_groups\":[\"g1\",\"g2\"],\"last_event\":\x7b\"timestamp\":7\x7d\x7d],\"_id\":\"x\"\x7d\x7d",
          some (.obj [("attributes", .obj [
            ("users", .arr [.obj [("user_groups", .arr [.str "g1", .str "g2"]),
              ("last_event", .obj [("timestamp", .num 7)])]]),
            ("_id", .str "x")])])⟩
      = .ok { ID := "x", Users := [{ Groups := ["g1", "g2"], LastEvent := some { Timestamp := 7 } }] } :=
  decode_wellFormed_value.2.2.2 _ _
    [("_id", .str "x"),
      ("users", .arr [.obj [("user_groups", .arr [.str "g1", .str "g2"]),
        ("last_event", .obj [("timestamp", .num 7)])]])]
    _ (by decide) rfl rfl (by decide) (List.Perm.swap _ _ _)

/-- A loop over a mapping in which every recognized key has an acceptable
value and some key is not recognized ends at the first unrecognized key. -/
theorem rangeLoop_first_unknown {σ : Type} (body : σ → String → JVal → Result σ)
    (fields : List String) (shape : String → JVal → Bool) (text : String → JVal → String)
    (hgood : ∀ s k v, k ∈ fields → shape k v = true → ∃ s', body s k v = .ok s')
    (hbad : ∀ s k v, k ∉ fields → body s k v = .error s (text k v))
    (m : List (String × JVal)) (s : σ)
    (hvalid : ∀ p ∈ m, p.1 ∈ fields → shape p.1 p.2 = true)
    (hex : ∃ p ∈ m, p.1 ∉ fields) :
    ∃ s' k v, rangeLoop body s m = .error s' (text k v) ∧ (k, v) ∈ m ∧ k ∉ fields := by
  induction m generalizing s with
  | nil => obtain ⟨p, hp, -⟩ := hex; simp at hp
  | cons p rest ih =>
    obtain ⟨k, v⟩ := p
    by_cases hk : k ∈ fields
    · obtain ⟨s1, hs1⟩ := hgood s k v hk (hvalid (k, v) (List.mem_cons_self _ _) hk)
      have hex' : ∃ p ∈ rest, p.1 ∉ fields := by
        obtain ⟨q, hq, hqf⟩ := hex
        rcases List.mem_cons.mp hq with rfl | hq'
        · exact absurd hk hqf
        · exact ⟨q, hq', hqf⟩
      obtain ⟨s', k', v', hrun, hmem, hnot⟩ :=
        ih s1 (fun q hq => hvalid q (List.mem_cons_of_mem _ hq)) hex'
      refine ⟨s', k', v', ?_, List.mem_cons_of_mem _ hmem, hnot⟩
      simp only [rangeLoop, hs1]
      exact hrun
    · refine ⟨s, k, v, ?_, List.mem_cons_self _ _, hk⟩
      simp only [rangeLoop, hbad s k v hk]

/-- One recognized entry with an acceptable value is accepted. -/
theorem entry_ok_of_loop {σ : Type} (body : σ → String → JVal → Result σ) (s s' : σ) (k : String)
    (v : JVal) (h : rangeLoop body s [(k, v)] = .ok s') : body s k v = .ok s' := by
  simp only [rangeLoop] at h
  cases hb : body s k v with
  | ok s1 => rw [hb] at h; simpa [rangeLoop] using h
  | error s1 msg => rw [hb] at h; simp at h
  | panic s1 => rw [hb] at h; simp at h

theorem wf_singleton (fields : List String) (shape : String → JVal → Bool) (k : String) (v : JVal)
    (hk : k ∈ fields) (hs : shape k v = true) :
    (decide (keysOf [(k, v)]).Nodup
        && [(k, v)].all (fun p => decide (p.1 ∈ fields) && shape p.1 p.2)) = true := by
  simp [keysOf, hk, hs]

theorem event_loadEntry_shape (e : Event) (k : String) (v : JVal) (hk : k ∈ Event.fields)
    (hs : Event.shape k v = true) : ∃ e', Event.loadEntry e k v = .ok e' :=
  ⟨_, entry_ok_of_loop _ _ _ _ _ (event_load_wf [(k, v)] e (wf_singleton _ _ k v hk hs))⟩

theorem host_loadEntry_shape (h : Host) (k : String) (v : JVal) (hk : k ∈ Host.fields)
    (hs : Host.shape k v = true) : ∃ h', Host.loadEntry h k v = .ok h' :=
  ⟨_, entry_ok_of_loop _ _ _ _ _ (host_load_wf [(k, v)] h (wf_singleton _ _ k v hk hs))⟩

theorem user_loadEntry_shape (u : User) (k : String) (v : JVal) (hk : k ∈ User.fields)
    (hs : User.shape k v = true) : ∃ u', User.loadEntry u k v = .ok u' :=
  ⟨_, entry_ok_of_loop _ _ _ _ _ (user_load_wf [(k, v)] u (wf_singleton _ _ k v hk hs))⟩

theorem endpoint_loadEntry_shape (c : ClientEndpoint) (k : String) (v : JVal)
    (hk : k ∈ ClientEndpoint.fields) (hs : ClientEndpoint.shape k v = true) :
    ∃ c', ClientEndpoint.loadEntry c k v = .ok c' :=
  ⟨_, entry_ok_of_loop _ _ _ _ _ (endpoint_load_wf [(k, v)] c (wf_singleton _ _ k v hk hs))⟩

theorem event_loadEntry_unknown (e : Event) (k : String) (v : JVal) (hk : k ∉ Event.fields) :
    Event.loadEntry e k v = .error e ("unsupported attribute: " ++ k ++ ", " ++ fmtValue v) := by
  simp only [Event.fields, List.mem_cons, List.mem_singleton, List.not_mem_nil, or_false,
    not_or] at hk
  simp [Event.loadEntry, hk]

theorem host_loadEntry_unknown (h : Host) (k : String) (v : JVal) (hk : k ∉ Host.fields) :
    Host.loadEntry h k v = .error h ("unsupported attribute: " ++ k ++ ", " ++ fmtValue v) := by
  simp only [Host.fields, List.mem_cons, List.mem_singleton, List.not_mem_nil, or_false,
    not_or] at hk
  simp [Host.loadEntry, hk]

theorem user_loadEntry_unknown (u : User) (k : String) (v : JVal) (hk : k ∉ User.fields) :
    User.loadEntry u k v = .error u ("unsupported attribute: " ++ k ++ ", " ++ fmtValue v) := by
  simp only [User.fields, List.mem_cons, List.mem_singleton, List.not_mem_nil, or_false,
    not_or] at hk
  simp [User.loadEntry, hk]

theorem endpoint_loadEntry_unknown (c : ClientEndpoint) (k : String) (v : JVal)
    (hk : k ∉ ClientEndpoint.fields) :
    ClientEndpoint.loadEntry c k v
      = .error c ("failed to unpack ClientEndpoint, unsupported attribute: " ++ k ++ ", "
          ++ fmtValue v) := by
  simp only [ClientEndpoint.fields, List.mem_cons, List.mem_singleton, List.not_mem_nil, or_false,
    not_or] at hk
  simp [ClientEndpoint.loadEntry, hk]

/-- C4. Strict rejection: for each of the four entities, decoding a mapping
that holds a key outside the entity's recognized field set returns an error,
whatever the other entries are as long as each is valid, and the error text
names an offending key of the mapping together with its value; both orders of
visiting `{"attributes": {"_id": "x", "bogus_field": 1}}` fail with an error
naming `bogus_field`. -/
theorem decode_rejects_unknown_key :
    (∀ (e : Event) (m : List (String × JVal)),
        (∀ p ∈ m, p.1 ∈ Event.fields → Event.shape p.1 p.2 = true) →
        (∃ p ∈ m, p.1 ∉ Event.fields) →
        ∃ e' k v, Event.load e m
            = .error e' ("unsupported attribute: " ++ k ++ ", " ++ fmtValue v)
          ∧ (k, v) ∈ m ∧ k ∉ Event.fields
          ∧ Mentions ("unsupported attribute: " ++ k ++ ", " ++ fmtValue v) k)
    ∧ (∀ (h : Host) (m : List (String × JVal)),
        (∀ p ∈ m, p.1 ∈ Host.fields → Host.shape p.1 p.2 = true) →
        (∃ p ∈ m, p.1 ∉ Host.fields) →
        ∃ h' k v, Host.load h m
            = .error h' ("unsupported attribute: " ++ k ++ ", " ++ fmtValue v)
          ∧ (k, v) ∈ m ∧ k ∉ Host.fields
          ∧ Mentions ("unsupported attribute: " ++ k ++ ", " ++ fmtValue v) k)
    ∧ (∀ (u : User) (m : List (String × JVal)),
        (∀ p ∈ m, p.1 ∈ User.fields → User.shape p.1 p.2 = true) →
        (∃ p ∈ m, p.1 ∉ User.fields) →
        ∃ u' k v, User.load u m
            = .error u' ("unsupported attribute: " ++ k ++ ", " ++ fmtValue v)
          ∧ (k, v) ∈ m ∧ k ∉ User.fields
          ∧ Mentions ("unsupported attribute: " ++ k ++ ", " ++ fmtValue v) k)
    ∧ (∀ (c : ClientEndpoint) (b : Payload) (top attrs : List (String × JVal)),
        10 ≤ b.len → b.json = some (.obj top) → top.lookup "attributes" = some (.obj attrs) →
        (∀ p ∈ attrs, p.1 ∈ ClientEndpoint.fields → ClientEndpoint.shape p.1 p.2 = true) →
        (∃ p ∈ attrs, p.1 ∉ ClientEndpoint.fields) →
        ∃ c' k v, ClientEndpoint.UnmarshalJSON c b
            = .error c' ("failed to unpack ClientEndpoint, unsupported attribute: " ++ k ++ ", "
                ++ fmtValue v)
          ∧ (k, v) ∈ attrs ∧ k ∉ ClientEndpoint.fields
          ∧ Mentions ("failed to unpack ClientEndpoint, unsupported attribute: " ++ k ++ ", "
                ++ fmtValue v) k)
    ∧ ClientEndpoint.UnmarshalJSON {}
          ⟨"\x7b\"attributes\": \x7b\"_id\": \"x\", \"bogus_field\": 1\x7d\x7d",
            some (.obj [("attributes", .obj [("_id", .str "x"), ("bogus_field", .num 1)])])⟩
        = .error { ID := "x" }
            "failed to unpack ClientEndpoint, unsupported attribute: bogus_field, 1"
    ∧ ClientEndpoint.UnmarshalJSON {}
          ⟨"\x7b\"attributes\": \x7b\"_id\": \"x\", \"bogus_field\": 1\x7d\x7d",
            some (.obj [("attributes", .obj [("bogus_field", .num 1), ("_id", .str "x")])])⟩
        = .error {} "failed to unpack ClientEndpoint, unsupported attribute: bogus_field, 1" := by
  refine ⟨fun e m hv hex => ?_, fun h m hv hex => ?_, fun u m hv hex => ?_,
    fun c b top attrs hlen hjson hattrs hv hex => ?_, by decide, by decide⟩
  · obtain ⟨e', k, v, hrun, hmem, hnot⟩ := rangeLoop_first_unknown Event.loadEntry Event.fields
      Event.shape (fun k v => "unsupported attribute: " ++ k ++ ", " ++ fmtValue v)
      event_loadEntry_shape event_loadEntry_unknown m e hv hex
    exact ⟨e', k, v, hrun, hmem, hnot, "unsupported attribute: ", ", " ++ fmtValue v,
      by simp [String.append_assoc]⟩
  · obtain ⟨h', k, v, hrun, hmem, hnot⟩ := rangeLoop_first_unknown Host.loadEntry Host.fields
      Host.shape (fun k v => "unsupported attribute: " ++ k ++ ", " ++ fmtValue v)
      host_loadEntry_shape host_loadEntry_unknown m h hv hex
    exact ⟨h', k, v, hrun, hmem, hnot, "unsupported attribute: ", ", " ++ fmtValue v,
      by simp [String.append_assoc]⟩
  · obtain ⟨u', k, v, hrun, hmem, hnot⟩ := rangeLoop_first_unknown User.loadEntry User.fields
      User.shape (fun k v => "unsupported attribute: " ++ k ++ ", " ++ fmtValue v)
      user_loadEntry_shape user_loadEntry_unknown m u hv hex
    exact ⟨u', k, v, hrun, hmem, hnot, "unsupported attribute: ", ", " ++ fmtValue v,
      by simp [String.append_assoc]⟩
  · obtain ⟨c', k, v, hrun, hmem, hnot⟩ := rangeLoop_first_unknown ClientEndpoint.loadEntry
      ClientEndpoint.fields ClientEndpoint.shape
      (fun k v => "failed to unpack ClientEndpoint, unsupported attribute: " ++ k ++ ", "
        ++ fmtValue v)
      endpoint_loadEntry_shape endpoint_loadEntry_unknown attrs c hv hex
    have hlen' : ¬ b.len < 10 := by omega
    refine ⟨c', k, v, ?_, hmem, hnot,
      "failed to unpack ClientEndpoint, unsupported attribute: ", ", " ++ fmtValue v,
      by simp [String.append_assoc]⟩
    simp only [ClientEndpoint.UnmarshalJSON, hlen', if_false, unmarshalMap, hjson, hattrs,
      ClientEndpoint.load]
    exact hrun

theorem decode_rejects_unknown_key_witness :
    ∃ u' k v, User.load {} [("_id", .str "u"), ("bogus_field", .num 1), ("username", .str "n")]
        = .error u' ("unsupported attribute: " ++ k ++ ", " ++ fmtValue v)
      ∧ (k, v) ∈ [("_id", JVal.str "u"), ("bogus_field", .num 1), ("username", .str "n")]
      ∧ k ∉ User.fields
      ∧ Mentions ("unsupported attribute: " ++ k ++ ", " ++ fmtValue v) k :=
  decode_rejects_unknown_key.2.2.1 {}
    [("_id", .str "u"), ("bogus_field", .num 1), ("username", .str "n")]
    (by decide) ⟨("bogus_field", .num 1), by simp, by decide⟩

/-! ## Type assertions -/

theorem rangeLoop_panic_at {σ : Type} (body : σ → String → JVal → Result σ) (s s' s'' : σ)
    (pre rest : List (String × JVal)) (k : String) (v : JVal)
    (hpre : rangeLoop body s pre = .ok s') (hb : body s' k v = .panic s'') :
    rangeLoop body s (pre ++ (k, v) :: rest) = .panic s'' := by
  rw [rangeLoop_append body s s' pre _ hpre]
  simp only [rangeLoop, hb]

theorem rangeLoop_error_at {σ : Type} (body : σ → String → JVal → Result σ) (s s' s'' : σ)
    (pre rest : List (String × JVal)) (k : String) (v : JVal) (msg : String)
    (hpre : rangeLoop body s pre = .ok s') (hb : body s' k v = .error s'' msg) :
    rangeLoop body s (pre ++ (k, v) :: rest) = .error s'' msg := by
  rw [rangeLoop_append body s s' pre _ hpre]
  simp only [rangeLoop, hb]

theorem event_loadEntry_mismatch (e : Event) (k : String) (v : JVal) (hk : k ∈ Event.fields)
    (hs : (Event.kind k).admits v = false) : Event.loadEntry e k v = .panic e := by
  simp only [Event.fields, List.mem_cons, List.mem_singleton, List.not_mem_nil, or_false] at hk
  rcases hk with rfl | rfl | rfl | rfl | rfl <;>
    cases v <;> simp [Event.kind, Kind.admits, JVal.isStr, JVal.isNum] at hs <;>
    simp [Event.loadEntry]

theorem host_loadEntry_mismatch (h : Host) (k : String) (v : JVal) (hk : k ∈ Host.fields)
    (hs : (Host.kind k).admits v = false) : Host.loadEntry h k v = .panic h := by
  simp only [Host.fields, List.mem_cons, List.mem_singleton, List.not_mem_nil, or_false] at hk
  rcases hk with rfl | rfl | rfl | rfl | rfl | rfl | rfl <;>
    cases v <;> simp [Host.kind, Kind.admits, JVal.isStr] at hs <;>
    simp [Host.loadEntry]

theorem user_loadEntry_mismatch (u : User) (k : String) (v : JVal) (hk : k ∈ User.fields)
    (hs : (User.kind k).admits v = false) : User.loadEntry u k v = .panic u := by
  simp only [User.fields, List.mem_cons, List.mem_singleton, List.not_mem_nil, or_false] at hk
  rcases hk with rfl | rfl | rfl | rfl | rfl | rfl | rfl | rfl | rfl <;>
    cases v <;>
    simp [User.kind, Kind.admits, JVal.isStr, JVal.isNum, JVal.isArr, JVal.isObj] at hs <;>
    simp [User.loadEntry]

theorem endpoint_loadEntry_mismatch (c : ClientEndpoint) (k : String) (v : JVal)
    (hk : k ∈ ClientEndpoint.fields) (hs : (ClientEndpoint.kind k).admits v = false) :
    ClientEndpoint.loadEntry c k v = .panic c := by
  simp only [ClientEndpoint.fields, List.mem_cons, List.mem_singleton, List.not_mem_nil,
    or_false] at hk
  rcases hk with rfl | rfl | rfl | rfl | rfl | rfl | rfl <;>
    cases v <;>
    simp [ClientEndpoint.kind, Kind.admits, JVal.isStr, JVal.isNum, JVal.isArr,
      JVal.isObj] at hs <;>
    simp [ClientEndpoint.loadEntry]

theorem user_appendGroups_mismatch (gs more : List JVal) (g : JVal) (u : User)
    (hgs : gs.all JVal.isStr = true) (hg : g.isStr = false) :
    User.appendGroups u (gs ++ g :: more) = .panic { u with Groups := u.Groups ++ strsOf gs } := by
  induction gs generalizing u with
  | nil => cases g <;> simp [JVal.isStr] at hg <;> simp [User.appendGroups, strsOf]
  | cons x rest ih =>
    rw [List.all_cons, Bool.and_eq_true] at hgs
    obtain ⟨h1, h2⟩ := hgs
    cases x <;> simp [JVal.isStr] at h1
    simp [User.appendGroups, strsOf, ih _ h2]

theorem endpoint_appendUsers_mismatch (k : String) (us more : List JVal) (x : JVal)
    (c : ClientEndpoint) (hus : us.all userShape = true) (hx : x.isObj = false) :
    ClientEndpoint.appendUsers k c (us ++ x :: more)
      = .panic { c with Users := c.Users ++ usersOf us } := by
  induction us generalizing c with
  | nil => cases x <;> simp [JVal.isObj] at hx <;> simp [ClientEndpoint.appendUsers, usersOf]
  | cons y rest ih =>
    rw [List.all_cons, Bool.and_eq_true] at hus
    obtain ⟨h1, h2⟩ := hus
    cases y <;> simp only [userShape, Bool.false_eq_true] at h1
    simp [ClientEndpoint.appendUsers, usersOf, ih _ h2, user_load_wf _ _ h1, User.expected]

/-- C5, as stated, fails: a number or `null` where a string is expected, a
string where a mapping is expected, and a non-mapping `attributes` each end
the decode in a run-time panic; no error value is returned to the caller. -/
theorem decode_type_mismatch_panics :
    Event.load {} [("actor", .num 1)] = .panic {}
    ∧ (Event.load {} [("actor", .num 1)]).isError = false
    ∧ Host.load {} [("hostname", .null)] = .panic {}
    ∧ (Host.load {} [("hostname", .null)]).isError = false
    ∧ User.load {} [("last_event", .str "x")] = .panic {}
    ∧ (User.load {} [("last_event", .str "x")]).isError = false
    ∧ ClientEndpoint.UnmarshalJSON {}
        ⟨"\x7b\"attributes\": \x7b\"_id\": 1\x7d\x7d", some (.obj [("attributes", .obj [("_id", .num 1)])])⟩
        = .panic {}
    ∧ (ClientEndpoint.UnmarshalJSON {}
        ⟨"\x7b\"attributes\": \x7b\"_id\": 1\x7d\x7d",
          some (.obj [("attributes", .obj [("_id", .num 1)])])⟩).isError = false
    ∧ ClientEndpoint.UnmarshalJSON {}
        ⟨"\x7b\"attributes\": \"x\"\x7d", some (.obj [("attributes", .str "x")])⟩ = .panic {} := by
  decide

/-- C5, amended. Type mismatch aborts the decode: for each entity decoder and
every recognized field name, if the supplied JSON value does not have the
kind the field's type assertion asks for (string, number, array, mapping),
then on visiting that entry, the entries before it having been accepted, the
decode panics; it returns neither `nil` nor an error, and the receiver is as
the entries before left it, with no default stored.  The same holds for an
element of `user_groups` that is not a string, an element of `users` that is
not a mapping, and an `attributes` value that is not a mapping. -/
theorem decode_type_mismatch_aborts :
    (∀ (e e' : Event) (pre rest : List (String × JVal)) (k : String) (v : JVal),
        Event.load e pre = .ok e' → k ∈ Event.fields → (Event.kind k).admits v = false →
        Event.load e (pre ++ (k, v) :: rest) = .panic e')
    ∧ (∀ (h h' : Host) (pre rest : List (String × JVal)) (k : String) (v : JVal),
        Host.load h pre = .ok h' → k ∈ Host.fields → (Host.kind k).admits v = false →
        Host.load h (pre ++ (k, v) :: rest) = .panic h')
    ∧ (∀ (u u' : User) (pre rest : List (String × JVal)) (k : String) (v : JVal),
        User.load u pre = .ok u' → k ∈ User.fields → (User.kind k).admits v = false →
        User.load u (pre ++ (k, v) :: rest) = .panic u')
    ∧ (∀ (u u' : User) (pre rest : List (String × JVal)) (gs more : List JVal) (g : JVal),
        User.load u pre = .ok u' → gs.all JVal.isStr = true → g.isStr = false →
        User.load u (pre ++ ("user_groups", .arr (gs ++ g :: more)) :: rest)
          = .panic { u' with Groups := u'.Groups ++ strsOf gs })
    ∧ (∀ (c c' : ClientEndpoint) (b : Payload) (top pre rest : List (String × JVal))
        (k : String) (v : JVal),
        10 ≤ b.len → b.json = some (.obj top) →
        top.lookup "attributes" = some (.obj (pre ++ (k, v) :: rest)) →
        ClientEndpoint.load c pre = .ok c' →
        k ∈ ClientEndpoint.fields → (ClientEndpoint.kind k).admits v = false →
        ClientEndpoint.UnmarshalJSON c b = .panic c')
    ∧ (∀ (c c' : ClientEndpoint) (b : Payload) (top pre rest : List (String × JVal))
        (us more : List JVal) (x : JVal),
        10 ≤ b.len → b.json = some (.obj top) →
        top.lookup "attributes"
          = some (.obj (pre ++ ("users", .arr (us ++ x :: more)) :: rest)) →
        ClientEndpoint.load c pre = .ok c' →
        us.all userShape = true → x.isObj = false →
        ClientEndpoint.UnmarshalJSON c b = .panic { c' with Users := c'.Users ++ usersOf us })
    ∧ (∀ (c : ClientEndpoint) (b : Payload) (top : List (String × JVal)) (v : JVal),
        10 ≤ b.len → b.json = some (.obj top) → top.lookup "attributes" = some v →
        v.isObj = false → ClientEndpoint.UnmarshalJSON c b = .panic c) := by
  refine ⟨?_, ?_, ?_, ?_, ?_, ?_, ?_⟩
  · intro e e' pre rest k v hpre hk hs
    exact rangeLoop_panic_at _ e e' e' pre rest k v hpre (event_loadEntry_mismatch e' k v hk hs)
  · intro h h' pre rest k v hpre hk hs
    exact rangeLoop_panic_at _ h h' h' pre rest k v hpre (host_loadEntry_mismatch h' k v hk hs)
  · intro u u' pre rest k v hpre hk hs
    exact rangeLoop_panic_at _ u u' u' pre rest k v hpre (user_loadEntry_mismatch u' k v hk hs)
  · intro u u' pre rest gs more g hpre hgs hg
    refine rangeLoop_panic_at _ u u' _ pre rest _ _ hpre ?_
    simp [User.loadEntry, user_appendGroups_mismatch gs more g u' hgs hg]
  · intro c c' b top pre rest k v hlen hjson hattrs hpre hk hs
    have hlen' : ¬ b.len < 10 := by omega
    simp only [ClientEndpoint.UnmarshalJSON, hlen', if_false, unmarshalMap, hjson, hattrs]
    exact rangeLoop_panic_at _ c c' c' pre rest k v hpre
      (endpoint_loadEntry_mismatch c' k v hk hs)
  · intro c c' b top pre rest us more x hlen hjson hattrs hpre hus hx
    have hlen' : ¬ b.len < 10 := by omega
    simp only [ClientEndpoint.UnmarshalJSON, hlen', if_false, unmarshalMap, hjson, hattrs]
    refine rangeLoop_panic_at _ c c' _ pre rest _ _ hpre ?_
    simp [ClientEndpoint.loadEntry, endpoint_appendUsers_mismatch _ us more x c' hus hx]
  · intro c b top v hlen hjson hattrs hv
    have hlen' : ¬ b.len < 10 := by omega
    simp only [ClientEndpoint.UnmarshalJSON, hlen', if_false, unmarshalMap, hjson, hattrs]
    cases v <;> simp [JVal.isObj] at hv <;> rfl

theorem decode_type_mismatch_aborts_witness :
    User.load {} ([("_id", .str "u")] ++ ("user_added_time", .str "soon") :: [("bogus", .null)])
      = .panic { ID := "u" } :=
  decode_type_mismatch_aborts.2.2.1 {} { ID := "u" } [("_id", .str "u")] [("bogus", .null)]
    "user_added_time" (.str "soon") (by decide) (by decide) (by decide)

/-- C9. Pre-inspection failures: `UnmarshalJSON` returns an error for every
payload shorter than 10 bytes and for every JSON object payload without a
top-level `attributes` key, and in both cases the receiver is left exactly as
it was before the call. -/
theorem unmarshalJSON_fails_before_fields :
    (∀ (c : ClientEndpoint) (b : Payload), b.len < 10 →
        ClientEndpoint.UnmarshalJSON c b = .error c ("invalid ClientEndpoint data: " ++ b.text))
    ∧ (∀ (c : ClientEndpoint) (b : Payload) (top : List (String × JVal)),
        b.json = some (.obj top) → "attributes" ∉ keysOf top →
        ∃ msg, ClientEndpoint.UnmarshalJSON c b = .error c msg) := by
  refine ⟨fun c b hlen => ?_, fun c b top hjson hno => ?_⟩
  · simp [ClientEndpoint.UnmarshalJSON, hlen]
  · by_cases hlen : b.len < 10
    · exact ⟨"invalid ClientEndpoint data: " ++ b.text, by
        simp [ClientEndpoint.UnmarshalJSON, hlen]⟩
    · exact ⟨"failed to unpack ClientEndpoint, attributes not found", by
        simp [ClientEndpoint.UnmarshalJSON, hlen, unmarshalMap, hjson,
          lookup_of_not_mem_keys top "attributes" hno]⟩

theorem unmarshalJSON_fails_before_fields_witness :
    ClientEndpoint.UnmarshalJSON { ID := "kept", Users := [{ ID := "u" }] }
        ⟨"\x7b\"a\":1\x7d", some (.obj [("a", .num 1)])⟩
      = .error { ID := "kept", Users := [{ ID := "u" }] }
          ("invalid ClientEndpoint data: " ++ "\x7b\"a\":1\x7d") :=
  unmarshalJSON_fails_before_fields.1 { ID := "kept", Users := [{ ID := "u" }] }
    ⟨"\x7b\"a\":1\x7d", some (.obj [("a", .num 1)])⟩ (by decide)

/-! ## Nested failures -/

theorem wrapped_mentions (parent err : String) :
    Mentions ("failed to unpack ClientEndpoint, " ++ parent ++ " attribute error: " ++ err) parent
    ∧ Mentions ("failed to unpack ClientEndpoint, " ++ parent ++ " attribute error: " ++ err)
        err :=
  ⟨⟨"failed to unpack ClientEndpoint, ", " attribute error: " ++ err, by
      simp [String.append_assoc]⟩,
    ⟨"failed to unpack ClientEndpoint, " ++ parent ++ " attribute error: ", "", by simp⟩⟩

theorem endpoint_appendUsers_append (k : String) (us rest : List JVal)
    (c c' : ClientEndpoint) (h : ClientEndpoint.appendUsers k c us = .ok c') :
    ClientEndpoint.appendUsers k c (us ++ rest) = ClientEndpoint.appendUsers k c' rest := by
  induction us generalizing c with
  | nil => simp [ClientEndpoint.appendUsers] at h; subst h; rfl
  | cons x xs ih =>
    cases x with
    | obj um =>
      simp only [ClientEndpoint.appendUsers, List.cons_append] at h ⊢
      cases hl : User.load {} um with
      | ok usr => rw [hl] at h; simp only at h ⊢; exact ih _ h
      | error s msg => rw [hl] at h; simp at h
      | panic s => rw [hl] at h; simp at h
    | _ => simp [ClientEndpoint.appendUsers] at h

theorem user_loadEntry_lastEvent_error (u : User) (em : List (String × JVal)) (e' : Event)
    (err : String) (h : Event.load {} em = .error e' err) :
    User.loadEntry u "last_event" (.obj em)
      = .error u ("failed to unpack ClientEndpoint, " ++ "last_event" ++ " attribute error: "
          ++ err) := by
  simp only [User.loadEntry, String.reduceEq, if_false, if_true, h]

theorem endpoint_loadEntry_hostInfo_error (c : ClientEndpoint)
    (hm : List (String × JVal)) (h' : Host) (err : String)
    (h : Host.load {} hm = .error h' err) :
    ClientEndpoint.loadEntry c "host_info" (.obj hm)
      = .error c ("failed to unpack ClientEndpoint, " ++ "host_info" ++ " attribute error: "
          ++ err) := by
  simp only [ClientEndpoint.loadEntry, String.reduceEq, if_false, if_true, h]

theorem endpoint_loadEntry_lastEvent_error (c : ClientEndpoint)
    (em : List (String × JVal)) (e' : Event) (err : String)
    (h : Event.load {} em = .error e' err) :
    ClientEndpoint.loadEntry c "last_event" (.obj em)
      = .error c ("failed to unpack ClientEndpoint, " ++ "last_event" ++ " attribute error: "
          ++ err) := by
  simp only [ClientEndpoint.loadEntry, String.reduceEq, if_false, if_true, h]

theorem endpoint_loadEntry_users_error (c c' : ClientEndpoint) (us more : List JVal)
    (um : List (String × JVal)) (u' : User) (err : String)
    (hus : ClientEndpoint.appendUsers "users" c us = .ok c')
    (h : User.load {} um = .error u' err) :
    ClientEndpoint.loadEntry c "users" (.arr (us ++ .obj um :: more))
      = .error c' ("failed to unpack ClientEndpoint, " ++ "users" ++ " attribute error: "
          ++ err) := by
  simp only [ClientEndpoint.loadEntry, String.reduceEq, if_false, if_true]
  rw [endpoint_appendUsers_append "users" us _ c c' hus]
  simp only [ClientEndpoint.appendUsers, h]

/-- A nested decode that returns an error, reached after accepted entries,
makes the enclosing decode return the error wrapped under the parent field
name. -/
theorem nested_error_is_wrapped :
    (∀ (u u' : User) (pre rest em : List (String × JVal)) (e' : Event) (err : String),
        User.load u pre = .ok u' → Event.load {} em = .error e' err →
        User.load u (pre ++ ("last_event", .obj em) :: rest)
            = .error u' ("failed to unpack ClientEndpoint, " ++ "last_event"
                ++ " attribute error: " ++ err)
          ∧ Mentions ("failed to unpack ClientEndpoint, " ++ "last_event"
                ++ " attribute error: " ++ err) "last_event"
          ∧ Mentions ("failed to unpack ClientEndpoint, " ++ "last_event"
                ++ " attribute error: " ++ err) err)
    ∧ (∀ (c c' : ClientEndpoint) (b : Payload) (top pre rest hm : List (String × JVal))
        (h' : Host) (err : String),
        10 ≤ b.len → b.json = some (.obj top) →
        top.lookup "attributes" = some (.obj (pre ++ ("host_info", .obj hm) :: rest)) →
        ClientEndpoint.load c pre = .ok c' → Host.load {} hm = .error h' err →
        ClientEndpoint.UnmarshalJSON c b
            = .error c' ("failed to unpack ClientEndpoint, " ++ "host_info"
                ++ " attribute error: " ++ err)
          ∧ Mentions ("failed to unpack ClientEndpoint, " ++ "host_info"
                ++ " attribute error: " ++ err) "host_info"
          ∧ Mentions ("failed to unpack ClientEndpoint, " ++ "host_info"
                ++ " attribute error: " ++ err) err)
    ∧ (∀ (c c' : ClientEndpoint) (b : Payload) (top pre rest em : List (String × JVal))
        (e' : Event) (err : String),
        10 ≤ b.len → b.json = some (.obj top) →
        top.lookup "attributes" = some (.obj (pre ++ ("last_event", .obj em) :: rest)) →
        ClientEndpoint.load c pre = .ok c' → Event.load {} em = .error e' err →
        ClientEndpoint.UnmarshalJSON c b
            = .error c' ("failed to unpack ClientEndpoint, " ++ "last_event"
                ++ " attribute error: " ++ err)
          ∧ Mentions ("failed to unpack ClientEndpoint, " ++ "last_event"
                ++ " attribute error: " ++ err) "last_event"
          ∧ Mentions ("failed to unpack ClientEndpoint, " ++ "last_event"
                ++ " attribute error: " ++ err) err)
    ∧ (∀ (c c' c'' : ClientEndpoint) (b : Payload) (top pre rest um : List (String × JVal))
        (us more : List JVal) (u' : User) (err : String),
        10 ≤ b.len → b.json = some (.obj top) →
        top.lookup "attributes"
          = some (.obj (pre ++ ("users", .arr (us ++ .obj um :: more)) :: rest)) →
        ClientEndpoint.load c pre = .ok c' →
        ClientEndpoint.appendUsers "users" c' us = .ok c'' →
        User.load {} um = .error u' err →
        ClientEndpoint.UnmarshalJSON c b
            = .error c'' ("failed to unpack ClientEndpoint, " ++ "users"
                ++ " attribute error: " ++ err)
          ∧ Mentions ("failed to unpack ClientEndpoint, " ++ "users"
                ++ " attribute error: " ++ err) "users"
          ∧ Mentions ("failed to unpack ClientEndpoint, " ++ "users"
                ++ " attribute error: " ++ err) err) := by
  refine ⟨?_, ?_, ?_, ?_⟩
  · intro u u' pre rest em e' err hpre hnested
    exact ⟨rangeLoop_error_at _ u u' u' pre rest _ _ _ hpre
      (user_loadEntry_lastEvent_error u' em e' err hnested), wrapped_mentions _ _⟩
  · intro c c' b top pre rest hm h' err hlen hjson hattrs hpre hnested
    have hlen' : ¬ b.len < 10 := by omega
    refine ⟨?_, wrapped_mentions _ _⟩
    simp only [ClientEndpoint.UnmarshalJSON, hlen', if_false, unmarshalMap, hjson, hattrs]
    exact rangeLoop_error_at _ c c' c' pre rest _ _ _ hpre
      (endpoint_loadEntry_hostInfo_error c' hm h' err hnested)
  · intro c c' b top pre rest em e' err hlen hjson hattrs hpre hnested
    have hlen' : ¬ b.len < 10 := by omega
    refine ⟨?_, wrapped_mentions _ _⟩
    simp only [ClientEndpoint.UnmarshalJSON, hlen', if_false, unmarshalMap, hjson, hattrs]
    exact rangeLoop_error_at _ c c' c' pre rest _ _ _ hpre
      (endpoint_loadEntry_lastEvent_error c' em e' err hnested)
  · intro c c' c'' b top pre rest um us more u' err hlen hjson hattrs hpre hus hnested
    have hlen' : ¬ b.len < 10 := by omega
    refine ⟨?_, wrapped_mentions _ _⟩
    simp only [ClientEndpoint.UnmarshalJSON, hlen', if_false, unmarshalMap, hjson, hattrs]
    exact rangeLoop_error_at _ c c' c'' pre rest _ _ _ hpre
      (endpoint_loadEntry_users_error c' c'' us more um u' err hus hnested)

/-! ## Serialization and the round trip -/

/-- Decoding what `json.Marshal` wrote for a user stops at the key `LastEvent`. -/
theorem user_load_marshalFields (u : User) :
    User.load {} u.marshalFields
      = .error { ID := u.ID, DeviceClassificationStatus := u.DeviceClassificationStatus }
          ("unsupported attribute: " ++ "LastEvent" ++ ", "
            ++ fmtValue (match u.LastEvent with
                | none => JVal.null
                | some e => e.marshal)) := by
  by_cases h1 : u.ID = "" <;> by_cases h2 : u.DeviceClassificationStatus = "" <;>
    simp [User.load, User.marshalFields, omitStr, rangeLoop, User.loadEntry, h1, h2]

/-- An endpoint with a user does not survive the round trip: decoding
`{"attributes": <what ToJSONString wrote>}`, the members visited in the order
written, fails on the first user's `LastEvent` member. -/
theorem endpoint_roundtrip_fails_of_user (c : ClientEndpoint) (u : User) (us : List User)
    (b : Payload) (hu : c.Users = u :: us) (hlen : 10 ≤ b.len)
    (hjson : b.json = some (.obj [("attributes", c.marshal)])) :
    ClientEndpoint.UnmarshalJSON {} b
      = .error { ID := c.ID, DeviceID := c.DeviceID, InstallTimestamp := c.InstallTimestamp,
                 Version := c.Version }
          ("failed to unpack ClientEndpoint, " ++ "users" ++ " attribute error: "
            ++ ("unsupported attribute: " ++ "LastEvent" ++ ", "
              ++ fmtValue (match u.LastEvent with
                  | none => JVal.null
                  | some e => e.marshal))) := by
  have hlen' : ¬ b.len < 10 := by omega
  have hl : User.load {} u.marshalFields = _ := user_load_marshalFields u
  by_cases h1 : c.ID = "" <;> by_cases h2 : c.DeviceID = "" <;>
    by_cases h3 : c.InstallTimestamp = 0 <;> by_cases h4 : c.Version = "" <;>
    simp [ClientEndpoint.UnmarshalJSON, hlen', unmarshalMap, hjson, ClientEndpoint.marshal,
      ClientEndpoint.marshalFields, omitStr, omitNum, hu, ClientEndpoint.load, rangeLoop,
      ClientEndpoint.loadEntry, ClientEndpoint.appendUsers, User.marshal, hl, h1, h2, h3, h4]

/-- C6 fails on the code. The endpoint decoded from
`{"attributes": {"users": [{"_id": "u"}]}}` serializes to
`{"users":[{"_id":"u","LastEvent":null}]}`; decoding that, wrapped in
`attributes`, returns an error on the member `LastEvent`, in either order of
the user's two members, so no equal entity comes back. -/
theorem roundtrip_fails_with_user :
    ClientEndpoint.UnmarshalJSON {}
        ⟨"\x7b\"attributes\": \x7b\"users\": [\x7b\"_id\": \"u\"\x7d]\x7d\x7d",
          some (.obj [("attributes", .obj [("users", .arr [.obj [("_id", .str "u")]])])])⟩
      = .ok { Users := [{ ID := "u" }] }
    ∧ ClientEndpoint.ToJSONString { Users := [{ ID := "u" }] }
      = .ok (.obj [("users", .arr [.obj [("_id", .str "u"), ("LastEvent", .null)]])])
    ∧ ClientEndpoint.UnmarshalJSON {}
        ⟨"\x7b\"attributes\": \x7b\"users\":[\x7b\"_id\":\"u\",\"LastEvent\":null\x7d]\x7d\x7d",
          some (.obj [("attributes",
            .obj [("users", .arr [.obj [("_id", .str "u"), ("LastEvent", .null)]])])])⟩
      = .error {}
          "failed to unpack ClientEndpoint, users attribute error: unsupported attribute: LastEvent, <nil>"
    ∧ ClientEndpoint.UnmarshalJSON {}
        ⟨"\x7b\"attributes\": \x7b\"users\":[\x7b\"_id\":\"u\",\"LastEvent\":null\x7d]\x7d\x7d",
          some (.obj [("attributes",
            .obj [("users", .arr [.obj [("LastEvent", .null), ("_id", .str "u")]])])])⟩
      = .error {}
          "failed to unpack ClientEndpoint, users attribute error: unsupported attribute: LastEvent, <nil>" := by
  refine ⟨by decide, ?_, by decide, by decide⟩
  simp [ClientEndpoint.ToJSONString, ClientEndpoint.marshal, ClientEndpoint.marshalFields,
    User.marshal, User.marshalFields, omitStr, omitNum]

/-! ## What a failed decode leaves behind -/

/-- A loop that returns an error does so at one entry, the entries before it
accepted. -/
theorem rangeLoop_error_split {σ : Type} (body : σ → String → JVal → Result σ) (s s' : σ)
    (m : List (String × JVal)) (msg : String) (h : rangeLoop body s m = .error s' msg) :
    ∃ pre k v rest s1, m = pre ++ (k, v) :: rest ∧ rangeLoop body s pre = .ok s1
      ∧ body s1 k v = .error s' msg := by
  induction m generalizing s with
  | nil => simp [rangeLoop] at h
  | cons p ps ih =>
    obtain ⟨k, v⟩ := p
    simp only [rangeLoop] at h
    cases hb : body s k v with
    | ok s1 =>
      rw [hb] at h
      obtain ⟨pre, k', v', rest, s2, hm, hpre, hbody⟩ := ih s1 h
      refine ⟨(k, v) :: pre, k', v', rest, s2, by simp [hm], ?_, hbody⟩
      simp only [rangeLoop, hb]
      exact hpre
    | error s1 msg1 =>
      rw [hb] at h
      simp only [Result.error.injEq] at h
      obtain ⟨rfl, rfl⟩ := h
      exact ⟨[], k, v, ps, s, rfl, rfl, hb⟩
    | panic s1 => rw [hb] at h; simp at h

theorem event_loadEntry_error (e e' : Event) (k : String) (v : JVal) (msg : String)
    (h : Event.loadEntry e k v = .error e' msg) : e' = e ∧ k ∉ Event.fields := by
  unfold Event.loadEntry at h
  split_ifs at h with h1 h2 h3 h4 h5
  · cases v <;> simp at h
  · cases v <;> simp at h
  · cases v <;> simp at h
  · cases v <;> simp at h
  · cases v <;> simp at h
  · simp only [Result.error.injEq] at h
    exact ⟨h.1.symm, by simp [Event.fields, h1, h2, h3, h4, h5]⟩

theorem host_loadEntry_error (x x' : Host) (k : String) (v : JVal) (msg : String)
    (h : Host.loadEntry x k v = .error x' msg) : x' = x ∧ k ∉ Host.fields := by
  unfold Host.loadEntry at h
  split_ifs at h with h1 h2 h3 h4 h5 h6 h7
  · cases v <;> simp at h
  · cases v <;> simp at h
  · cases v <;> simp at h
  · cases v <;> simp at h
  · cases v <;> simp at h
  · cases v <;> simp at h
  · cases v <;> simp at h
  · simp only [Result.error.injEq] at h
    exact ⟨h.1.symm, by simp [Host.fields, h1, h2, h3, h4, h5, h6, h7]⟩

theorem user_appendGroups_not_error (gs : List JVal) (u u' : User) (msg : String) :
    User.appendGroups u gs ≠ .error u' msg := by
  induction gs generalizing u with
  | nil => simp [User.appendGroups]
  | cons g rest ih => cases g <;> simp [User.appendGroups, ih]

theorem user_loadEntry_error (u u' : User) (k : String) (v : JVal) (msg : String)
    (h : User.loadEntry u k v = .error u' msg) :
    u' = u ∧ (k ∉ User.fields
      ∨ (k = "last_event" ∧ ∃ em e1 err, v = .obj em ∧ Event.load {} em = .error e1 err)) := by
  unfold User.loadEntry at h
  split_ifs at h with h1 h2 h3 h4 h5 h6 h7 h8 h9
  · cases v <;> simp at h
  · cases v <;> simp at h
  · cases v with
    | obj em =>
      simp only at h
      cases hl : Event.load {} em with
      | ok e1 => rw [hl] at h; simp at h
      | error e1 err =>
        rw [hl] at h
        simp only [Result.error.injEq] at h
        exact ⟨h.1.symm, Or.inr ⟨h3, em, e1, err, rfl, hl⟩⟩
      | panic e1 => rw [hl] at h; simp at h
    | _ => simp at h
  · cases v <;> simp at h
  · cases v <;> simp at h
  · cases v with
    | arr gs => exact absurd h (user_appendGroups_not_error gs u u' msg)
    | _ => simp at h
  · cases v <;> simp at h
  · cases v <;> simp at h
  · cases v <;> simp at h
  · simp only [Result.error.injEq] at h
    exact ⟨h.1.symm, Or.inl (by simp [User.fields, h1, h2, h3, h4, h5, h6, h7, h8, h9])⟩

/-- The users appended by a loop that went through are the users decoded,
one for one and in order, from the elements of the array. -/
theorem endpoint_appendUsers_ok (k : String) (us : List JVal) (c c' : ClientEndpoint)
    (h : ClientEndpoint.appendUsers k c us = .ok c') :
    ∃ loaded : List User,
      List.Forall₂ (fun x usr => ∃ m, x = JVal.obj m ∧ User.load {} m = .ok usr) us loaded
      ∧ c' = { c with Users := c.Users ++ loaded } := by
  induction us generalizing c with
  | nil =>
    simp only [ClientEndpoint.appendUsers, Result.ok.injEq] at h
    exact ⟨[], List.Forall₂.nil, by simp [← h]⟩
  | cons x xs ih =>
    cases x with
    | obj um =>
      simp only [ClientEndpoint.appendUsers] at h
      cases hl : User.load {} um with
      | ok usr =>
        rw [hl] at h
        obtain ⟨loaded, hall, hc⟩ := ih _ h
        exact ⟨usr :: loaded, List.Forall₂.cons ⟨um, rfl, hl⟩ hall, by simp [hc]⟩
      | error s msg => rw [hl] at h; simp at h
      | panic s => rw [hl] at h; simp at h
    | _ => simp [ClientEndpoint.appendUsers] at h

theorem endpoint_appendUsers_error (k : String) (us : List JVal) (c c' : ClientEndpoint)
    (msg : String) (h : ClientEndpoint.appendUsers k c us = .error c' msg) :
    ∃ pre um more u1 err, us = pre ++ .obj um :: more
      ∧ ClientEndpoint.appendUsers k c pre = .ok c' ∧ User.load {} um = .error u1 err := by
  induction us generalizing c with
  | nil => simp [ClientEndpoint.appendUsers] at h
  | cons x xs ih =>
    cases x with
    | obj um =>
      simp only [ClientEndpoint.appendUsers] at h
      cases hl : User.load {} um with
      | ok usr =>
        rw [hl] at h
        obtain ⟨pre, um', more, u1, err, hxs, hpre, hload⟩ := ih _ h
        refine ⟨.obj um :: pre, um', more, u1, err, by simp [hxs], ?_, hload⟩
        simp only [ClientEndpoint.appendUsers, hl]
        exact hpre
      | error s err =>
        rw [hl] at h
        simp only [Result.error.injEq] at h
        exact ⟨[], um, xs, s, err, rfl, by simp [ClientEndpoint.appendUsers, h.1], hl⟩
      | panic s => rw [hl] at h; simp at h
    | _ => simp [ClientEndpoint.appendUsers] at h

theorem endpoint_loadEntry_error (c c' : ClientEndpoint) (k : String) (v : JVal) (msg : String)
    (h : ClientEndpoint.loadEntry c k v = .error c' msg) :
    (c' = c ∧ (k ∉ ClientEndpoint.fields ∨ k = "host_info" ∨ k = "last_event"))
    ∨ (k = "users" ∧ ∃ us um more u1 err, v = .arr (us ++ .obj um :: more)
        ∧ ClientEndpoint.appendUsers "users" c us = .ok c'
        ∧ User.load {} um = .error u1 err) := by
  unfold ClientEndpoint.loadEntry at h
  split_ifs at h with h1 h2 h3 h4 h5 h6 h7
  · cases v <;> simp at h
  · cases v <;> simp at h
  · cases v <;> simp at h
  · cases v <;> simp at h
  · cases v with
    | arr us =>
      simp only at h
      subst h5
      obtain ⟨pre, um, more, u1, err, hus, hpre, hload⟩ := endpoint_appendUsers_error _ us c c' msg h
      exact Or.inr ⟨rfl, pre, um, more, u1, err, by rw [hus], hpre, hload⟩
    | _ => simp at h
  · cases v with
    | obj hm =>
      simp only at h
      cases hl : Host.load {} hm with
      | ok x => rw [hl] at h; simp at h
      | error x err =>
        rw [hl] at h
        simp only [Result.error.injEq] at h
        exact Or.inl ⟨h.1.symm, Or.inr (Or.inl h6)⟩
      | panic x => rw [hl] at h; simp at h
    | _ => simp at h
  · cases v with
    | obj em =>
      simp only at h
      cases hl : Event.load {} em with
      | ok x => rw [hl] at h; simp at h
      | error x err =>
        rw [hl] at h
        simp only [Result.error.injEq] at h
        exact Or.inl ⟨h.1.symm, Or.inr (Or.inr h7)⟩
      | panic x => rw [hl] at h; simp at h
    | _ => simp at h
  · simp only [Result.error.injEq] at h
    exact Or.inl ⟨h.1.symm,
      Or.inl (by simp [ClientEndpoint.fields, h1, h2, h3, h4, h5, h6, h7])⟩

/-- C11, as stated, fails: each decoder writes into its receiver entry by
entry and does not undo that on an error.  An unrecognized key visited after
a valid entry leaves the valid entry's field set in a fresh `Event`, `Host`,
`User` and `ClientEndpoint`, and a failing second user leaves the first user
appended. -/
theorem decode_error_keeps_accepted_fields :
    Event.load {} [("actor", .str "a"), ("bogus", .num 1)]
      = .error { Actor := "a" } "unsupported attribute: bogus, 1"
    ∧ (Event.load {} [("actor", .str "a"), ("bogus", .num 1)]).state.Actor ≠ ({} : Event).Actor
    ∧ Host.load {} [("hostname", .str "h"), ("bogus", .num 1)]
      = .error { Hostname := "h" } "unsupported attribute: bogus, 1"
    ∧ User.load {} [("username", .str "n"), ("bogus", .num 1)]
      = .error { Username := "n" } "unsupported attribute: bogus, 1"
    ∧ ClientEndpoint.UnmarshalJSON {}
        ⟨"\x7b\"attributes\": \x7b\"_id\": \"x\", \"bogus_field\": 1\x7d\x7d",
          some (.obj [("attributes", .obj [("_id", .str "x"), ("bogus_field", .num 1)])])⟩
      = .error { ID := "x" }
          "failed to unpack ClientEndpoint, unsupported attribute: bogus_field, 1"
    ∧ ClientEndpoint.UnmarshalJSON {}
        ⟨"\x7b\"attributes\": \x7b\"users\": [\x7b\"_id\": \"u\"\x7d, \x7b\"bogus\": 1\x7d]\x7d\x7d",
          some (.obj [("attributes",
            .obj [("users", .arr [.obj [("_id", .str "u")], .obj [("bogus", .num 1)]])])])⟩
      = .error { Users := [{ ID := "u" }] }
          "failed to unpack ClientEndpoint, users attribute error: unsupported attribute: bogus, 1" := by
  decide

/-- C11, amended. A failed decode is not rolled back: whenever `Event.load`,
`Host.load`, `User.load` or `ClientEndpoint.UnmarshalJSON` returns an error,
the mapping splits at the failing entry and the target entity is exactly as
the entries visited before that entry left it; when those entries form a
well-formed mapping, that is the target with their fields set to the values
supplied and every other field as before the call.  Nothing of the failing
entry is stored (a nested `last_event` or `host_info` that fails to decode is
not attached), except that for `users` the users decoded from the elements
before the failing one stay appended, in order; and `UnmarshalJSON` leaves
the target untouched when it fails before reaching `attributes`. -/
theorem decode_error_leaves_accepted_prefix :
    (∀ (e e' : Event) (m : List (String × JVal)) (msg : String),
        Event.load e m = .error e' msg →
        ∃ pre k v rest, m = pre ++ (k, v) :: rest ∧ Event.load e pre = .ok e'
          ∧ k ∉ Event.fields
          ∧ (Event.wf pre = true → e' = Event.overlay e pre))
    ∧ (∀ (h h' : Host) (m : List (String × JVal)) (msg : String),
        Host.load h m = .error h' msg →
        ∃ pre k v rest, m = pre ++ (k, v) :: rest ∧ Host.load h pre = .ok h'
          ∧ k ∉ Host.fields
          ∧ (Host.wf pre = true → h' = Host.overlay h pre))
    ∧ (∀ (u u' : User) (m : List (String × JVal)) (msg : String),
        User.load u m = .error u' msg →
        ∃ pre k v rest, m = pre ++ (k, v) :: rest ∧ User.load u pre = .ok u'
          ∧ (k ∉ User.fields
            ∨ (k = "last_event" ∧ ∃ em e1 err, v = .obj em ∧ Event.load {} em = .error e1 err))
          ∧ (User.wf pre = true → u' = User.overlay u pre))
    ∧ (∀ (c c' : ClientEndpoint) (b : Payload) (msg : String),
        ClientEndpoint.UnmarshalJSON c b = .error c' msg →
        c' = c
        ∨ ∃ top pre k v rest c1, b.json = some (.obj top)
            ∧ top.lookup "attributes" = some (.obj (pre ++ (k, v) :: rest))
            ∧ ClientEndpoint.load c pre = .ok c1
            ∧ (ClientEndpoint.wf pre = true → c1 = ClientEndpoint.overlay c pre)
            ∧ ((c' = c1 ∧ (k ∉ ClientEndpoint.fields ∨ k = "host_info" ∨ k = "last_event"))
              ∨ (k = "users" ∧ ∃ (us more : List JVal) (um : List (String × JVal))
                    (loaded : List User) (u1 : User) (err : String),
                  v = .arr (us ++ .obj um :: more)
                  ∧ List.Forall₂
                      (fun x usr => ∃ m, x = JVal.obj m ∧ User.load {} m = .ok usr) us loaded
                  ∧ User.load {} um = .error u1 err
                  ∧ c' = { c1 with Users := c1.Users ++ loaded }))) := by
  refine ⟨?_, ?_, ?_, ?_⟩
  · intro e e' m msg h
    obtain ⟨pre, k, v, rest, s1, hm, hpre, hbody⟩ := rangeLoop_error_split _ e e' m msg h
    obtain ⟨rfl, hk⟩ := event_loadEntry_error s1 e' k v msg hbody
    refine ⟨pre, k, v, rest, hm, hpre, hk, fun hwf => ?_⟩
    have := event_load_wf pre e hwf
    rw [Event.load] at this
    rw [this] at hpre
    exact (Result.ok.inj hpre).symm
  · intro x x' m msg h
    obtain ⟨pre, k, v, rest, s1, hm, hpre, hbody⟩ := rangeLoop_error_split _ x x' m msg h
    obtain ⟨rfl, hk⟩ := host_loadEntry_error s1 x' k v msg hbody
    refine ⟨pre, k, v, rest, hm, hpre, hk, fun hwf => ?_⟩
    have := host_load_wf pre x hwf
    rw [Host.load] at this
    rw [this] at hpre
    exact (Result.ok.inj hpre).symm
  · intro u u' m msg h
    obtain ⟨pre, k, v, rest, s1, hm, hpre, hbody⟩ := rangeLoop_error_split _ u u' m msg h
    obtain ⟨rfl, hk⟩ := user_loadEntry_error s1 u' k v msg hbody
    refine ⟨pre, k, v, rest, hm, hpre, hk, fun hwf => ?_⟩
    have := user_load_wf pre u hwf
    rw [User.load] at this
    rw [this] at hpre
    exact (Result.ok.inj hpre).symm
  · intro c c' b msg h
    unfold ClientEndpoint.UnmarshalJSON at h
    split_ifs at h with hlen
    · simp only [Result.error.injEq] at h
      exact Or.inl h.1.symm
    · cases hj : b.json with
      | none =>
        simp only [unmarshalMap, hj, Result.error.injEq] at h
        exact Or.inl h.1.symm
      | some j =>
        cases j with
        | obj top =>
          simp only [unmarshalMap, hj] at h
          cases hl : top.lookup "attributes" with
          | none =>
            rw [hl] at h
            simp only [Result.error.injEq] at h
            exact Or.inl h.1.symm
          | some a =>
            rw [hl] at h
            cases a with
            | obj attrs =>
              simp only at h
              obtain ⟨pre, k, v, rest, c1, hm, hpre, hbody⟩ :=
                rangeLoop_error_split _ c c' attrs msg h
              have hov : ClientEndpoint.wf pre = true → c1 = ClientEndpoint.overlay c pre := by
                intro hwf
                have := endpoint_load_wf pre c hwf
                rw [ClientEndpoint.load] at this
                rw [this] at hpre
                exact (Result.ok.inj hpre).symm
              refine Or.inr ⟨top, pre, k, v, rest, c1, rfl, by rw [hl, hm], hpre, hov, ?_⟩
              rcases endpoint_loadEntry_error c1 c' k v msg hbody with
                ⟨hc, hk⟩ | ⟨hk, us, um, more, u1, err, hv, hus, hload⟩
              · exact Or.inl ⟨hc, hk⟩
              · obtain ⟨loaded, hall, hc⟩ := endpoint_appendUsers_ok _ us c1 c' hus
                exact Or.inr ⟨hk, us, more, um, loaded, u1, err, hv, hall, hload, hc⟩
            | _ => simp at h
        | null =>
          simp only [unmarshalMap, hj, List.lookup_nil, Result.error.injEq] at h
          exact Or.inl h.1.symm
        | _ =>
          simp only [unmarshalMap, hj, Result.error.injEq] at h
          exact Or.inl h.1.symm

theorem decode_error_leaves_accepted_prefix_witness :
    ClientEndpoint.UnmarshalJSON {}
        ⟨"\x7b\"attributes\": \x7b\"_id\": \"x\", \"users\": [\x7b\"_id\": \"u\"\x7d, \x7b\"bogus\": 1\x7d]\x7d\x7d",
          some (.obj [("attributes", .obj [("_id", .str "x"),
            ("users", .arr [.obj [("_id", .str "u")], .obj [("bogus", .num 1)]])])])⟩
        = .error { ID := "x", Users := [{ ID := "u" }] }
            "failed to unpack ClientEndpoint, users attribute error: unsupported attribute: bogus, 1"
    ∧ (({ ID := "x", Users := [{ ID := "u" }] } : ClientEndpoint) = {}
        ∨ ∃ top pre k v rest c1,
            some (JVal.obj [("attributes", .obj [("_id", .str "x"),
              ("users", .arr [.obj [("_id", .str "u")], .obj [("bogus", .num 1)]])])])
              = some (.obj top)
            ∧ top.lookup "attributes" = some (.obj (pre ++ (k, v) :: rest))
            ∧ ClientEndpoint.load {} pre = .ok c1
            ∧ (ClientEndpoint.wf pre = true → c1 = ClientEndpoint.overlay {} pre)
            ∧ ((({ ID := "x", Users := [{ ID := "u" }] } : ClientEndpoint) = c1
                  ∧ (k ∉ ClientEndpoint.fields ∨ k = "host_info" ∨ k = "last_event"))
              ∨ (k = "users" ∧ ∃ (us more : List JVal) (um : List (String × JVal))
                    (loaded : List User) (u1 : User) (err : String),
                  v = .arr (us ++ .obj um :: more)
                  ∧ List.Forall₂
                      (fun x usr => ∃ m, x = JVal.obj m ∧ User.load {} m = .ok usr) us loaded
                  ∧ User.load {} um = .error u1 err
                  ∧ ({ ID := "x", Users := [{ ID := "u" }] } : ClientEndpoint)
                      = { c1 with Users := c1.Users ++ loaded }))) :=
  ⟨by decide,
    decode_error_leaves_accepted_prefix.2.2.2 {} { ID := "x", Users := [{ ID := "u" }] }
      ⟨"\x7b\"attributes\": \x7b\"_id\": \"x\", \"users\": [\x7b\"_id\": \"u\"\x7d, \x7b\"bogus\": 1\x7d]\x7d\x7d",
        some (.obj [("attributes", .obj [("_id", .str "x"),
          ("users", .arr [.obj [("_id", .str "u")], .obj [("bogus", .num 1)]])])])⟩
      "failed to unpack ClientEndpoint, users attribute error: unsupported attribute: bogus, 1"
      (by decide)⟩

/-! ## A failing call -/

/-- A run over full pages followed by a call whose body panics in decoding:
the whole run. -/
theorem loop_panicking_call {β : Type} (c : Transport β) (pageSize : Int)
    (pages : List (List EndpointRef)) (fuel : Nat)
    (hs : Serves c pageSize 0 0 pages)
    (hfull : ∀ p ∈ pages, pageSize ≤ (p.length : Int))
    (hpanic : PanicsAt c pageSize pages.length (recordCount pages))
    (hfuel : pages.length < fuel) :
    GetClientEndpoints.loop c pageSize fuel 0 [] []
      = some ⟨requests pageSize 0 pages ++ [⟨Itoa pageSize, Itoa (recordCount pages)⟩],
          .panicked⟩ := by
  obtain ⟨f, rfl⟩ : ∃ f, fuel = pages.length + (f + 1) := ⟨fuel - pages.length - 1, by omega⟩
  rw [loop_advance c pageSize pages (f + 1) 0 [] [] hs hfull, GetClientEndpoints.loop]
  have hlen : ([] ++ requests pageSize 0 pages).length = pages.length := by
    simp [requests_length]
  rw [hlen]
  obtain ⟨b, hb, hr⟩ := hpanic
  simp [hb, hr]

theorem unmarshalData_cons_null (success msg : String) (p : Payload) (rest : List Payload)
    (acc : List EndpointRef) (hj : p.json = some .null) :
    unmarshalData success msg (p :: rest) acc = unmarshalData success msg rest (acc ++ [none]) := by
  rw [unmarshalData]
  split
  · rfl
  · next hne => exact absurd hj (hne)

theorem unmarshalData_cons_elem (success msg : String) (p : Payload) (rest : List Payload)
    (acc : List EndpointRef) (hj : p.json ≠ some .null) :
    unmarshalData success msg (p :: rest) acc
      = match ClientEndpoint.UnmarshalJSON {} p with
        | .ok c => unmarshalData success msg rest (acc ++ [some c])
        | .error _ err => .error err
        | .panic _ => .panic := by
  rw [unmarshalData]
  split
  · next hn => exact absurd hn hj
  · rfl

theorem unmarshalData_append (success msg : String) (pre rest : List Payload)
    (acc : List EndpointRef) (r : ClientEndpointResponse)
    (h : unmarshalData success msg pre acc = .ok r) :
    unmarshalData success msg (pre ++ rest) acc
      = unmarshalData success msg rest r.ClientEndpoints := by
  induction pre generalizing acc with
  | nil =>
    simp only [unmarshalData, Unmarshalled.ok.injEq] at h
    subst h
    rfl
  | cons p ps ih =>
    rw [List.cons_append]
    by_cases hj : p.json = some .null
    · rw [unmarshalData_cons_null success msg p _ acc hj] at h ⊢
      exact ih _ h
    · rw [unmarshalData_cons_elem success msg p _ acc hj] at h ⊢
      cases hu : ClientEndpoint.UnmarshalJSON {} p with
      | ok c => rw [hu] at h; simp only; exact ih _ h
      | error s err => rw [hu] at h; simp at h
      | panic s => rw [hu] at h; simp at h

/-- The element after decoded ones decides how the envelope decode ends. -/
theorem unmarshalData_at (success msg : String) (pre rest : List Payload) (p : Payload)
    (r : ClientEndpointResponse) (hpre : unmarshalData success msg pre [] = .ok r)
    (hnull : p.json ≠ some .null) :
    unmarshalData success msg (pre ++ p :: rest) []
      = match ClientEndpoint.UnmarshalJSON {} p with
        | .ok c => unmarshalData success msg rest (r.ClientEndpoints ++ [some c])
        | .error _ err => .error err
        | .panic _ => .panic := by
  rw [unmarshalData_append success msg pre _ [] r hpre,
    unmarshalData_cons_elem success msg p rest _ hnull]

/-- C3, as stated, fails when the decode of the envelope fails on a type
mismatch.  With page size 1 the first envelope decodes to one record; the
second holds `{"attributes": {"_id": 1}}`, whose decode panics in
`UnmarshalJSON`, so `json.Unmarshal` and `GetClientEndpoints` panic: two calls
are made and nothing is returned, neither an error nor the first page. -/
theorem getClientEndpoints_decode_panic_returns_nothing :
    unmarshalBody (.envelope "" "" [⟨"\x7b\"attributes\": \x7b\"_id\": \"x\"\x7d\x7d",
        some (.obj [("attributes", .obj [("_id", .str "x")])])⟩])
      = .ok { ClientEndpoints := [some { ID := "x" }] }
    ∧ ClientEndpoint.UnmarshalJSON {} ⟨"\x7b\"attributes\": \x7b\"_id\": 1\x7d\x7d",
        some (.obj [("attributes", .obj [("_id", .num 1)])])⟩ = .panic {}
    ∧ unmarshalBody (.envelope "" "" [⟨"\x7b\"attributes\": \x7b\"_id\": 1\x7d\x7d",
        some (.obj [("attributes", .obj [("_id", .num 1)])])⟩]) = .panic
    ∧ GetClientEndpoints (replying [
          .ok (.envelope "" "" [⟨"\x7b\"attributes\": \x7b\"_id\": \"x\"\x7d\x7d",
            some (.obj [("attributes", .obj [("_id", .str "x")])])⟩]),
          .ok (.envelope "" "" [⟨"\x7b\"attributes\": \x7b\"_id\": 1\x7d\x7d",
            some (.obj [("attributes", .obj [("_id", .num 1)])])⟩])])
        [("page_size", .int 1)] 3
      = some ⟨[⟨"1", "0"⟩, ⟨"1", "1"⟩], .panicked⟩ := by
  decide

/-- C3, amended. Partial result on failure: when the first `k-1` pages are
served and decoded, each with `pageSize` records or more, and the `k`-th call
returns an error from `callAPI` or from decoding the envelope,
`GetClientEndpoints` makes exactly `k` calls and returns that error together
with the concatenation of the first `k-1` pages.  When decoding the `k`-th
envelope panics instead, `GetClientEndpoints` makes exactly `k` calls and
panics, returning nothing.  Decoding an envelope returns the error of the
first record whose `UnmarshalJSON` returns one, and panics at the first record
whose `UnmarshalJSON` panics, the records before it decoded. -/
theorem getClientEndpoints_failure_outcomes :
    (∀ {β : Type} (c : Transport β) (opts : List (String × OptValue)) (pageSize : Int)
        (pages : List (List EndpointRef)) (msg : String) (fuel : Nat),
        pageSizeOf opts = some pageSize →
        Serves c pageSize 0 0 pages →
        (∀ p ∈ pages, pageSize ≤ (p.length : Int)) →
        FailsAt c pageSize pages.length (recordCount pages) msg →
        pages.length < fuel →
        ∃ calls, GetClientEndpoints c opts fuel
            = some ⟨calls, .returned pages.flatten (some msg)⟩
          ∧ calls.length = pages.length + 1)
    ∧ (∀ {β : Type} (c : Transport β) (opts : List (String × OptValue)) (pageSize : Int)
        (pages : List (List EndpointRef)) (fuel : Nat),
        pageSizeOf opts = some pageSize →
        Serves c pageSize 0 0 pages →
        (∀ p ∈ pages, pageSize ≤ (p.length : Int)) →
        PanicsAt c pageSize pages.length (recordCount pages) →
        pages.length < fuel →
        ∃ calls, GetClientEndpoints c opts fuel = some ⟨calls, .panicked⟩
          ∧ calls.length = pages.length + 1)
    ∧ (∀ (success msg : String) (pre rest : List Payload) (p : Payload)
        (r : ClientEndpointResponse) (c' : ClientEndpoint) (err : String),
        unmarshalData success msg pre [] = .ok r → p.json ≠ some .null →
        ClientEndpoint.UnmarshalJSON {} p = .error c' err →
        unmarshalBody (.envelope success msg (pre ++ p :: rest)) = .error err)
    ∧ (∀ (success msg : String) (pre rest : List Payload) (p : Payload)
        (r : ClientEndpointResponse) (c' : ClientEndpoint),
        unmarshalData success msg pre [] = .ok r → p.json ≠ some .null →
        ClientEndpoint.UnmarshalJSON {} p = .panic c' →
        unmarshalBody (.envelope success msg (pre ++ p :: rest)) = .panic) := by
  refine ⟨?_, ?_, ?_, ?_⟩
  · intro β c opts pageSize pages msg fuel hopts hs hfull hfail hfuel
    refine ⟨requests pageSize 0 pages ++ [⟨Itoa pageSize, Itoa (recordCount pages)⟩], ?_,
      by simp [requests_length]⟩
    rw [getClientEndpoints_eq_loop c opts pageSize fuel hopts]
    exact loop_failing_call c pageSize pages msg fuel hs hfull hfail hfuel
  · intro β c opts pageSize pages fuel hopts hs hfull hpanic hfuel
    refine ⟨requests pageSize 0 pages ++ [⟨Itoa pageSize, Itoa (recordCount pages)⟩], ?_,
      by simp [requests_length]⟩
    rw [getClientEndpoints_eq_loop c opts pageSize fuel hopts]
    exact loop_panicking_call c pageSize pages fuel hs hfull hpanic hfuel
  · intro success msg pre rest p r c' err hpre hnull hdec
    simp only [unmarshalBody]
    rw [unmarshalData_at success msg pre rest p r hpre hnull, hdec]
  · intro success msg pre rest p r c' hpre hnull hdec
    simp only [unmarshalBody]
    rw [unmarshalData_at success msg pre rest p r hpre hnull, hdec]

theorem getClientEndpoints_failure_outcomes_witness :
    (∃ calls, GetClientEndpoints (scripted [[none, some {}], [none, none]])
        [("page_size", .int 2)] 5
        = some ⟨calls, .returned [[none, some {}], [none, none]].flatten
            (some "error: status code 500: ")⟩
      ∧ calls.length = ([[none, some {}], [none, none]] : List (List EndpointRef)).length + 1)
    ∧ (∃ calls, GetClientEndpoints (replying [
          .ok (.envelope "" "" [⟨"\x7b\"attributes\": \x7b\"_id\": \"x\"\x7d\x7d",
            some (.obj [("attributes", .obj [("_id", .str "x")])])⟩]),
          .ok (.envelope "" "" [⟨"\x7b\"attributes\": \x7b\"_id\": 1\x7d\x7d",
            some (.obj [("attributes", .obj [("_id", .num 1)])])⟩])])
        [("page_size", .int 1)] 3 = some ⟨calls, .panicked⟩
      ∧ calls.length = ([[some { ID := "x" }]] : List (List EndpointRef)).length + 1) :=
  ⟨getClientEndpoints_failure_outcomes.1 (scripted [[none, some {}], [none, none]])
      [("page_size", .int 2)] 2 [[none, some {}], [none, none]] "error: status code 500: " 5 rfl
      ⟨⟨_, _, rfl, rfl, rfl⟩, ⟨_, _, rfl, rfl, rfl⟩, trivial⟩
      (by decide) (Or.inl rfl) (by decide),
    getClientEndpoints_failure_outcomes.2.1 (replying _) [("page_size", .int 1)] 1
      [[some { ID := "x" }]] 3 rfl
      ⟨⟨_, { ClientEndpoints := [some { ID := "x" }] }, rfl, by decide, rfl⟩, trivial⟩
      (by decide) ⟨_, rfl, by decide⟩ (by decide)⟩

/-! ## Nested failures: both outcomes -/

theorem user_loadEntry_lastEvent_panic (u : User) (em : List (String × JVal)) (e' : Event)
    (h : Event.load {} em = .panic e') :
    User.loadEntry u "last_event" (.obj em) = .panic u := by
  simp only [User.loadEntry, String.reduceEq, if_false, if_true, h]

theorem endpoint_loadEntry_hostInfo_panic (c : ClientEndpoint) (hm : List (String × JVal))
    (h' : Host) (h : Host.load {} hm = .panic h') :
    ClientEndpoint.loadEntry c "host_info" (.obj hm) = .panic c := by
  simp only [ClientEndpoint.loadEntry, String.reduceEq, if_false, if_true, h]

theorem endpoint_loadEntry_lastEvent_panic (c : ClientEndpoint) (em : List (String × JVal))
    (e' : Event) (h : Event.load {} em = .panic e') :
    ClientEndpoint.loadEntry c "last_event" (.obj em) = .panic c := by
  simp only [ClientEndpoint.loadEntry, String.reduceEq, if_false, if_true, h]

theorem endpoint_loadEntry_users_panic (c c' : ClientEndpoint) (us more : List JVal)
    (um : List (String × JVal)) (u' : User)
    (hus : ClientEndpoint.appendUsers "users" c us = .ok c')
    (h : User.load {} um = .panic u') :
    ClientEndpoint.loadEntry c "users" (.arr (us ++ .obj um :: more)) = .panic c' := by
  simp only [ClientEndpoint.loadEntry, String.reduceEq, if_false, if_true]
  rw [endpoint_appendUsers_append "users" us _ c c' hus]
  simp only [ClientEndpoint.appendUsers, h]

/-- C10, as stated, fails when the nested decode fails on a type mismatch:
`Host.load` on `{"hostname": 1}` panics, and so does the enclosing decode of
`{"attributes": {"host_info": {"hostname": 1}}}`; no error naming `host_info`
is returned.  The same holds for a user's `last_event`, for the endpoint's
`last_event` and for an element of `users`. -/
theorem nested_type_mismatch_panics :
    Host.load {} [("hostname", .num 1)] = .panic {}
    ∧ ClientEndpoint.UnmarshalJSON {}
        ⟨"\x7b\"attributes\": \x7b\"host_info\": \x7b\"hostname\": 1\x7d\x7d\x7d",
          some (.obj [("attributes", .obj [("host_info", .obj [("hostname", .num 1)])])])⟩
      = .panic {}
    ∧ (ClientEndpoint.UnmarshalJSON {}
        ⟨"\x7b\"attributes\": \x7b\"host_info\": \x7b\"hostname\": 1\x7d\x7d\x7d",
          some (.obj [("attributes",
            .obj [("host_info", .obj [("hostname", .num 1)])])])⟩).isError = false
    ∧ Event.load {} [("timestamp", .str "now")] = .panic {}
    ∧ User.load {} [("last_event", .obj [("timestamp", .str "now")])] = .panic {}
    ∧ ClientEndpoint.UnmarshalJSON {}
        ⟨"\x7b\"attributes\": \x7b\"last_event\": \x7b\"timestamp\": \"now\"\x7d\x7d\x7d",
          some (.obj [("attributes", .obj [("last_event", .obj [("timestamp", .str "now")])])])⟩
      = .panic {}
    ∧ User.load {} [("_id", .num 1)] = .panic {}
    ∧ ClientEndpoint.UnmarshalJSON {}
        ⟨"\x7b\"attributes\": \x7b\"users\": [\x7b\"_id\": 1\x7d]\x7d\x7d",
          some (.obj [("attributes", .obj [("users", .arr [.obj [("_id", .num 1)]])])])⟩
      = .panic {} := by
  decide

/-- C10, amended. Recursive failure propagation: when the decode of a nested
mapping returns an error (`Event.load` for a user's `last_event`; `Host.load`
for `host_info`, `Event.load` for the endpoint's `last_event`, `User.load` for
an element of `users`, the elements before it loaded), the entries visited
before having been accepted, the enclosing decode returns an error whose text
holds the parent field name and the nested error's text.  When the nested
decode panics instead (a type mismatch inside the nested mapping), the
enclosing decode panics too and returns no error. -/
theorem nested_failure_outcomes :
    ((∀ (u u' : User) (pre rest em : List (String × JVal)) (e' : Event) (err : String),
        User.load u pre = .ok u' → Event.load {} em = .error e' err →
        User.load u (pre ++ ("last_event", .obj em) :: rest)
            = .error u' ("failed to unpack ClientEndpoint, " ++ "last_event"
                ++ " attribute error: " ++ err)
          ∧ Mentions ("failed to unpack ClientEndpoint, " ++ "last_event"
                ++ " attribute error: " ++ err) "last_event"
          ∧ Mentions ("failed to unpack ClientEndpoint, " ++ "last_event"
                ++ " attribute error: " ++ err) err)
    ∧ (∀ (c c' : ClientEndpoint) (b : Payload) (top pre rest hm : List (String × JVal))
        (h' : Host) (err : String),
        10 ≤ b.len → b.json = some (.obj top) →
        top.lookup "attributes" = some (.obj (pre ++ ("host_info", .obj hm) :: rest)) →
        ClientEndpoint.load c pre = .ok c' → Host.load {} hm = .error h' err →
        ClientEndpoint.UnmarshalJSON c b
            = .error c' ("failed to unpack ClientEndpoint, " ++ "host_info"
                ++ " attribute error: " ++ err)
          ∧ Mentions ("failed to unpack ClientEndpoint, " ++ "host_info"
                ++ " attribute error: " ++ err) "host_info"
          ∧ Mentions ("failed to unpack ClientEndpoint, " ++ "host_info"
                ++ " attribute error: " ++ err) err)
    ∧ (∀ (c c' : ClientEndpoint) (b : Payload) (top pre rest em : List (String × JVal))
        (e' : Event) (err : String),
        10 ≤ b.len → b.json = some (.obj top) →
        top.lookup "attributes" = some (.obj (pre ++ ("last_event", .obj em) :: rest)) →
        ClientEndpoint.load c pre = .ok c' → Event.load {} em = .error e' err →
        ClientEndpoint.UnmarshalJSON c b
            = .error c' ("failed to unpack ClientEndpoint, " ++ "last_event"
                ++ " attribute error: " ++ err)
          ∧ Mentions ("failed to unpack ClientEndpoint, " ++ "last_event"
                ++ " attribute error: " ++ err) "last_event"
          ∧ Mentions ("failed to unpack ClientEndpoint, " ++ "last_event"
                ++ " attribute error: " ++ err) err)
    ∧ (∀ (c c' c'' : ClientEndpoint) (b : Payload) (top pre rest um : List (String × JVal))
        (us more : List JVal) (u' : User) (err : String),
        10 ≤ b.len → b.json = some (.obj top) →
        top.lookup "attributes"
          = some (.obj (pre ++ ("users", .arr (us ++ .obj um :: more)) :: rest)) →
        ClientEndpoint.load c pre = .ok c' →
        ClientEndpoint.appendUsers "users" c' us = .ok c'' →
        User.load {} um = .error u' err →
        ClientEndpoint.UnmarshalJSON c b
            = .error c'' ("failed to unpack ClientEndpoint, " ++ "users"
                ++ " attribute error: " ++ err)
          ∧ Mentions ("failed to unpack ClientEndpoint, " ++ "users"
                ++ " attribute error: " ++ err) "users"
          ∧ Mentions ("failed to unpack ClientEndpoint, " ++ "users"
                ++ " attribute error: " ++ err) err))
    ∧ (∀ (u u' : User) (pre rest em : List (String × JVal)) (e' : Event),
        User.load u pre = .ok u' → Event.load {} em = .panic e' →
        User.load u (pre ++ ("last_event", .obj em) :: rest) = .panic u')
    ∧ (∀ (c c' : ClientEndpoint) (b : Payload) (top pre rest hm : List (String × JVal))
        (h' : Host),
        10 ≤ b.len → b.json = some (.obj top) →
        top.lookup "attributes" = some (.obj (pre ++ ("host_info", .obj hm) :: rest)) →
        ClientEndpoint.load c pre = .ok c' → Host.load {} hm = .panic h' →
        ClientEndpoint.UnmarshalJSON c b = .panic c')
    ∧ (∀ (c c' : ClientEndpoint) (b : Payload) (top pre rest em : List (String × JVal))
        (e' : Event),
        10 ≤ b.len → b.json = some (.obj top) →
        top.lookup "attributes" = some (.obj (pre ++ ("last_event", .obj em) :: rest)) →
        ClientEndpoint.load c pre = .ok c' → Event.load {} em = .panic e' →
        ClientEndpoint.UnmarshalJSON c b = .panic c')
    ∧ (∀ (c c' c'' : ClientEndpoint) (b : Payload) (top pre rest um : List (String × JVal))
        (us more : List JVal) (u' : User),
        10 ≤ b.len → b.json = some (.obj top) →
        top.lookup "attributes"
          = some (.obj (pre ++ ("users", .arr (us ++ .obj um :: more)) :: rest)) →
        ClientEndpoint.load c pre = .ok c' →
        ClientEndpoint.appendUsers "users" c' us = .ok c'' →
        User.load {} um = .panic u' →
        ClientEndpoint.UnmarshalJSON c b = .panic c'') := by
  refine ⟨nested_error_is_wrapped, ?_, ?_, ?_, ?_⟩
  · intro u u' pre rest em e' hpre hnested
    exact rangeLoop_panic_at _ u u' u' pre rest _ _ hpre
      (user_loadEntry_lastEvent_panic u' em e' hnested)
  · intro c c' b top pre rest hm h' hlen hjson hattrs hpre hnested
    have hlen' : ¬ b.len < 10 := by omega
    simp only [ClientEndpoint.UnmarshalJSON, hlen', if_false, unmarshalMap, hjson, hattrs]
    exact rangeLoop_panic_at _ c c' c' pre rest _ _ hpre
      (endpoint_loadEntry_hostInfo_panic c' hm h' hnested)
  · intro c c' b top pre rest em e' hlen hjson hattrs hpre hnested
    have hlen' : ¬ b.len < 10 := by omega
    simp only [ClientEndpoint.UnmarshalJSON, hlen', if_false, unmarshalMap, hjson, hattrs]
    exact rangeLoop_panic_at _ c c' c' pre rest _ _ hpre
      (endpoint_loadEntry_lastEvent_panic c' em e' hnested)
  · intro c c' c'' b top pre rest um us more u' hlen hjson hattrs hpre hus hnested
    have hlen' : ¬ b.len < 10 := by omega
    simp only [ClientEndpoint.UnmarshalJSON, hlen', if_false, unmarshalMap, hjson, hattrs]
    exact rangeLoop_panic_at _ c c' c'' pre rest _ _ hpre
      (endpoint_loadEntry_users_panic c' c'' us more um u' hus hnested)

theorem nested_failure_outcomes_witness :
    ClientEndpoint.UnmarshalJSON {}
        ⟨"\x7b\"attributes\":\x7b\"_id\":\"x\",\"users\":[\x7b\"_id\":\"u\"\x7d,\x7b\"last_event\":\x7b\"when\":1\x7d\x7d]\x7d\x7d",
          some (.obj [("attributes", .obj ([("_id", .str "x")]
            ++ ("users", .arr ([.obj [("_id", .str "u")]]
                ++ .obj [("last_event", .obj [("when", .num 1)])] :: [])) :: []))])⟩
        = .error { ID := "x", Users := [{ ID := "u" }] }
            ("failed to unpack ClientEndpoint, " ++ "users" ++ " attribute error: "
              ++ "failed to unpack ClientEndpoint, last_event attribute error: unsupported attribute: when, 1")
      ∧ Mentions ("failed to unpack ClientEndpoint, " ++ "users" ++ " attribute error: "
              ++ "failed to unpack ClientEndpoint, last_event attribute error: unsupported attribute: when, 1")
          "users"
      ∧ Mentions ("failed to unpack ClientEndpoint, " ++ "users" ++ " attribute error: "
              ++ "failed to unpack ClientEndpoint, last_event attribute error: unsupported attribute: when, 1")
          "failed to unpack ClientEndpoint, last_event attribute error: unsupported attribute: when, 1" :=
  nested_failure_outcomes.1.2.2.2 {} { ID := "x" } { ID := "x", Users := [{ ID := "u" }] }
    _ _ [("_id", .str "x")] [] [("last_event", .obj [("when", .num 1)])]
    [.obj [("_id", .str "u")]] [] {} _
    (by decide) rfl rfl (by decide) (by decide) (by decide)

